import Mathlib

/-!
# Verification of the hexgame server core

A shallow embedding of the authoritative game-server code of the hexgame
repository, together with theorems settling the frozen claims about it.

Embedded source files (JavaScript):
* `config.js` — game constants.
* `redis/GameData.js` — the persistent data layer (hex hash, points hash,
  event list) over Redis. Redis hashes are modelled as association lists
  (`hset` = insert-or-replace, `hget` = first lookup); the Redis list of
  events is modelled as a `List` whose head is the most recently `lpush`ed
  element.
* `rooms/RedisGameRoom.js` — the room simulation core: `computeCost`,
  the `clickHex` / `fillHex` / `chooseStart` handlers, the per-candidate
  decision of the auto-expansion scan, and the economy tick.
* `redis-server.js` — the `/api/register` HTTP endpoint.

Modelling conventions:
* Timestamps (`Date.now()`) are threaded as an explicit `now : Nat`.
* JavaScript `null` string fields become `Option String`; fields the code
  stores as `''` stay `String`.
* Player points are stored as non-negative integers (`Nat`): every write
  goes through `setPlayerPoints` with a value that the writers clamp at 0.
* The real-valued formulas `Math.floor(g * Math.log2 n)` (for `g : Nat`)
  and `Math.floor(2.5 * Math.sqrt s)` (for `s` a rational with an exact
  small denominator) are encoded exactly on naturals:
  `⌊g·log₂ n⌋ = ⌊log₂ (n^g)⌋ = floorLog2 (n^g)` for `n ≥ 1`, and
  `⌊2.5·√s⌋ = ⌊√(6.25·s)⌋ = isqrt ⌊6.25·s⌋` (floor and square root commute
  on non-negative reals). `floorLog2` and `isqrt` are fuel-based structural
  recursions so that concrete instances evaluate inside the kernel; the
  theorems `isqrt_spec` and `floorLog2_spec` characterise them as the exact
  mathematical floors. The claims state the same real-valued formulas as
  the code, so this exact-arithmetic reading applies to claim and code
  alike (IEEE-754 rounding of the JavaScript evaluation is out of scope).
-/

namespace HexGame

/-! ## Constants (src/config.js, `config.game`) -/

def startDelay : Nat := 5000

def hexValue : Nat := 10

def expGrowth : Nat := 5

def occupiedBase : Nat := 5

def baseIncome : Nat := 2

def startingPoints : Nat := 200

def startingMaxPoints : Nat := 200

def autoCaptureThreshold : Nat := 3

/-- `config.game.playerColors`: the fixed palette of 8 colors. -/
def playerColors : List String :=
  ["#e74c3c", "#3498db", "#2ecc71", "#f1c40f",
   "#9b59b6", "#e67e22", "#1abc9c", "#c0392b"]

/-! ## Exact encodings of the two real-valued formulas -/

/-- Fuel-based floor of the base-2 logarithm. `floorLog2Aux fuel m`
computes `⌊log₂ m⌋` whenever `m ≤ fuel` and `1 ≤ m`. -/
def floorLog2Aux : Nat → Nat → Nat
  | 0, _ => 0
  | fuel + 1, m => if 2 ≤ m then floorLog2Aux fuel (m / 2) + 1 else 0

/-- `⌊log₂ m⌋` for `m ≥ 1` (and `0` at `m = 0`). -/
def floorLog2 (m : Nat) : Nat := floorLog2Aux m m

/-- Fuel-based integer square root by upward search: returns the largest
`k` reachable from the start value with `k² ≤ n`. -/
def isqrtAux : Nat → Nat → Nat → Nat
  | 0, _, k => k
  | fuel + 1, n, k => if (k + 1) * (k + 1) ≤ n then isqrtAux fuel n (k + 1) else k

/-- `⌊√n⌋`. -/
def isqrt (n : Nat) : Nat := isqrtAux n n 0

/-! ## Data model

`games:<gameId>:hexes` (Redis hash, field `"q:r"`, value = JSON hex),
`games:<gameId>:points` (hash, field = playerId, value = JSON row) and
`games:<gameId>:events` (Redis list, `LPUSH`/`LTRIM`/`LRANGE`) for one game,
as written and read by `redis/GameData.js`. -/

/-- Axial hex coordinate `(q, r)`. -/
abbrev Coord := Int × Int

/-- The six axial neighbor directions (`GameData.HEX_DIRS`, identical to the
table inlined in `RedisGameRoom.getNeighborCoords`). -/
def hexDirs : List Coord :=
  [(1, 0), (1, -1), (0, -1), (-1, 0), (-1, 1), (0, 1)]

/-- `RedisGameRoom.getNeighborCoords(q, r)`. -/
def getNeighborCoords (c : Coord) : List Coord :=
  hexDirs.map (fun d => (c.1 + d.1, c.2 + d.2))

/-- One stored hex (the JSON value in the hex hash). The `q`/`r` fields of
the JSON are always the key's coordinates (`setHex` writes both together),
so they are represented once, as the association-list key. `upgradeTime` is
absent (`none`) until `setHexUpgrade` sets it. -/
structure Hex where
  owner : Option String
  color : String
  upgrade : String
  terrain : String
  captureTime : Nat
  upgradeTime : Option Nat := none
  isStart : Bool
deriving Repr, DecidableEq

/-- One stored points row (the JSON value in the points hash).
`startQ`/`startR` are absent (`none`) until the start pick records them. -/
structure PointsRow where
  points : Nat
  maxPoints : Nat
  startQ : Option Int := none
  startR : Option Int := none
  lastUpdate : Nat
deriving Repr, DecidableEq

/-- One stored game event (`GameData.saveGameEvent`). The JSON stores `q`
and `r` as decimal strings; readers parse them back, so they are modelled
as integers. -/
structure Event where
  playerId : String
  color : String
  q : Int
  r : Int
  eventType : String
  timestamp : Nat
deriving Repr, DecidableEq

/-- The per-game persistent state: hex hash, points hash, event list.
The head of `events` is the most recently `LPUSH`ed event. -/
structure GameStore where
  hexes : List (Coord × Hex)
  points : List (String × PointsRow)
  events : List Event
deriving Repr, DecidableEq

/-- Association-list lookup (Redis `HGET`): first binding of the key. -/
def alGet {α β : Type} [DecidableEq α] (l : List (α × β)) (k : α) : Option β :=
  (l.find? (fun e => decide (e.1 = k))).map (fun e => e.2)

/-- Association-list insert-or-replace (Redis `HSET`): replaces the first
binding in place, else appends. -/
def alSet {α β : Type} [DecidableEq α] : List (α × β) → α → β → List (α × β)
  | [], k, v => [(k, v)]
  | (k0, v0) :: rest, k, v =>
    if k0 = k then (k, v) :: rest else (k0, v0) :: alSet rest k v

/-! ## Game data layer (redis/GameData.js) -/

/-- `GameData.getHex` / `GameData.getHexOwner` (the latter is an alias). -/
def getHex (s : GameStore) (c : Coord) : Option Hex := alGet s.hexes c

/-- `GameData.getHexOwner` is defined as `getHex`. -/
def getHexOwner (s : GameStore) (c : Coord) : Option Hex := getHex s c

/-- `GameData.setHex(gameId, q, r, playerId, color, upgrade = null,
terrain = null, isStart = false)`: builds a fresh hex JSON (omitted
`upgrade`/`terrain` become `''`, `upgradeTime` is absent, `captureTime` is
`Date.now()`) and `HSET`s it, overwriting any previous value. -/
def setHex (s : GameStore) (c : Coord) (playerId : Option String)
    (color : String) (upgrade terrain : Option String) (isStart : Bool)
    (now : Nat) : GameStore :=
  let hex : Hex :=
    { owner := playerId,
      color := color,
      upgrade := upgrade.getD "",
      terrain := terrain.getD "",
      captureTime := now,
      upgradeTime := none,
      isStart := isStart }
  { s with hexes := alSet s.hexes c hex }

/-- `GameData.getAllHexes`: all stored hexes (the iteration order of
`Object.values(hgetall)` is the hash's field order; every use in the
embedded code is order-insensitive — counts, filters and existentials). -/
def getAllHexes (s : GameStore) : List (Coord × Hex) := s.hexes

/-- The hexes of one player: `getAllHexes(...).filter(h => h.playerId === pid)`. -/
def playerHexes (s : GameStore) (pid : String) : List (Coord × Hex) :=
  s.hexes.filter (fun e => decide (e.2.owner = some pid))

/-- `GameData.getHexCountForPlayer`. -/
def getHexCountForPlayer (s : GameStore) (pid : String) : Nat :=
  (playerHexes s pid).length

/-- `GameData.calculateMaxPoints`:
`startingMaxPoints + 50·banks + 5·tiles` for the player. -/
def calculateMaxPoints (s : GameStore) (pid : String) : Nat :=
  let ph := playerHexes s pid
  let bankCount := (ph.filter (fun e => decide (e.2.upgrade = "bank"))).length
  startingMaxPoints + bankCount * 50 + ph.length * 5

/-- `GameData.setPlayerPoints`: writes the row; omitted `startQ`/`startR`
leave the fields absent; `lastUpdate` is `Date.now()`. -/
def setPlayerPoints (s : GameStore) (pid : String) (pts maxPts : Nat)
    (startQ startR : Option Int) (now : Nat) : GameStore :=
  let row : PointsRow :=
    { points := pts,
      maxPoints := maxPts,
      startQ := startQ,
      startR := startR,
      lastUpdate := now }
  { s with points := alSet s.points pid row }

/-- `GameData.getPlayerPoints`: on a missing row, initializes it to the
defaults `(startingPoints, startingMaxPoints)` (a write!) and returns the
defaults; on a hit, returns the stored row with `maxPoints` overlaid by a
fresh `calculateMaxPoints`. Returns the (possibly augmented) store. -/
def getPlayerPoints (s : GameStore) (pid : String) (now : Nat) :
    GameStore × PointsRow :=
  match alGet s.points pid with
  | none =>
    (setPlayerPoints s pid startingPoints startingMaxPoints none none now,
     { points := startingPoints, maxPoints := startingMaxPoints,
       lastUpdate := now })
  | some data => (s, { data with maxPoints := calculateMaxPoints s pid })

/-- `GameData.updatePlayerPoints(gameId, playerId, newPoints)`: reads the
current row (initializing on miss), recomputes the cap, clamps `newPoints`
to `[0, cap]` and writes back, preserving `startQ`/`startR`. -/
def updatePlayerPoints (s : GameStore) (pid : String) (newPoints : Int)
    (now : Nat) : GameStore :=
  let res := getPlayerPoints s pid now
  let currentMaxPoints := calculateMaxPoints res.1 pid
  let clamped : Int := max 0 (min newPoints (currentMaxPoints : Int))
  setPlayerPoints res.1 pid clamped.toNat currentMaxPoints
    res.2.startQ res.2.startR now

/-- `GameData.saveGameEvent`: `LPUSH` the JSON event, then
`LTRIM 0 9999` (keep the 10,000 most recent; the oldest fall off). -/
def saveGameEvent (s : GameStore) (playerId color : String) (q r : Int)
    (eventType : String) (now : Nat) : GameStore :=
  let ev : Event :=
    { playerId := playerId, color := color, q := q, r := r,
      eventType := eventType, timestamp := now }
  { s with events := (ev :: s.events).take 10000 }

/-- `GameData.getGameEvents`: `LRANGE 0 -1`, i.e. the whole list from the
head — most recently pushed first. -/
def getGameEvents (s : GameStore) : List Event := s.events

/-- `GameData.setHexUpgrade`: read the hex; if absent do nothing, else set
only `upgrade` and `upgradeTime` and write the hex back. -/
def setHexUpgrade (s : GameStore) (c : Coord) (upgrade : String)
    (now : Nat) : GameStore :=
  match getHex s c with
  | none => s
  | some h =>
    { s with hexes :=
        alSet s.hexes c { h with upgrade := upgrade, upgradeTime := some now } }

/-- `GameData.isHexPassable`: `!hex || hex.terrain !== 'mountain'`. -/
def isHexPassable (s : GameStore) (c : Coord) : Bool :=
  match getHex s c with
  | none => true
  | some h => decide (h.terrain ≠ "mountain")

/-- `GameData.isAdjacentToRiver`: some neighbor hex has terrain `river`. -/
def isAdjacentToRiver (s : GameStore) (c : Coord) : Bool :=
  (getNeighborCoords c).any (fun n =>
    match getHex s n with
    | some h => decide (h.terrain = "river")
    | none => false)

/-- `GameData.playerHasRiverAccess`: the player owns some hex adjacent to a
river. -/
def playerHasRiverAccess (s : GameStore) (pid : String) : Bool :=
  (playerHexes s pid).any (fun e => isAdjacentToRiver s e.1)

/-! ## Cost model (rooms/RedisGameRoom.js, `computeCost`) -/

/-- The JS test `hex && hex.playerId === pid` on an optional hex. -/
def ownedBy (h? : Option Hex) (pid : String) : Bool :=
  match h? with
  | some h => decide (h.owner = some pid)
  | none => false

/-- The existing hexes among the six neighbors (the code fetches all six
with `getHexOwner` and guards each use with `n && …`). -/
def neighborHexes (s : GameStore) (c : Coord) : List Hex :=
  (getNeighborCoords c).filterMap (fun n => getHex s n)

/-- `RedisGameRoom.computeCost(attackerPlayerId, q, r)`.

Exact encodings of the two floating-point formulas (see the header):
* `hexValue + Math.floor(expGrowth * Math.log2(H + 2))` is
  `hexValue + floorLog2 ((H + 2) ^ expGrowth)`;
* `Math.max(1, Math.floor(cost * 0.7))` is `max 1 (cost * 7 / 10)`;
* defender strength `(1 + Dp/Dh)·(Dh·(hexValue + 0.5))` equals the exact
  rational `(Dh + Dp)·21/2` (the division by `Dh` cancels), doubled by a
  touching fort; `strengthHalves` below is `2·strength`, so
  `Math.floor(attackMult * Math.sqrt(strength)) = ⌊√(6.25·strength)⌋ =
  isqrt (25 * strengthHalves / 8)`.

The store is threaded because `getPlayerPoints` initializes a missing
defender row. -/
def computeCost (s : GameStore) (attackerId : String) (c : Coord)
    (now : Nat) : GameStore × Option Nat :=
  let occupied := getHexOwner s c
  if ownedBy occupied attackerId then (s, none)
  else
    let attackerHexCount := getHexCountForPlayer s attackerId
    let expansionCost :=
      hexValue + floorLog2 ((attackerHexCount + 2) ^ expGrowth)
    let cost1 :=
      if isAdjacentToRiver s c && playerHasRiverAccess s attackerId then
        max 1 (expansionCost * 7 / 10)
      else expansionCost
    match occupied with
    | some oh =>
      match oh.owner with
      | some defPlayerId =>
        if defPlayerId = attackerId then (s, some cost1)
        else
          let defenderHexCount := max 1 (getHexCountForPlayer s defPlayerId)
          let res := getPlayerPoints s defPlayerId now
          let defenderPoints := res.2.points
          let touchingFort :=
            decide (oh.upgrade = "fort") ||
              (neighborHexes res.1 c).any (fun n =>
                decide (n.upgrade = "fort") && decide (n.owner = some defPlayerId))
          let strengthHalves :=
            (if touchingFort then 42 else 21) *
              (defenderHexCount + defenderPoints)
          let attackCost :=
            expansionCost + occupiedBase + isqrt (25 * strengthHalves / 8)
          (res.1, some (max cost1 attackCost))
      | none => (s, some cost1)
    | none => (s, some cost1)

/-! ### Claim-side cost formula -/

/-- `points(d)` as the spec reads it: the stored points of the player,
defaulting to `startingPoints` when the row is missing (the value
`getPlayerPoints` reports). -/
def pointsOf (s : GameStore) (pid : String) : Nat :=
  ((alGet s.points pid).map (fun row => row.points)).getD startingPoints

/-- `tiles(p)`: the number of hexes owned by `p`. -/
def tilesOf (s : GameStore) (pid : String) : Nat := getHexCountForPlayer s pid

/-- The hex at `c` exists and holds a fort owned by `d`. -/
def fortAt (s : GameStore) (c : Coord) (d : String) : Bool :=
  ((getHex s c).map (fun h =>
    decide (h.upgrade = "fort") && decide (h.owner = some d))).getD false

/-- Claim-side fort test: the target hex, or one of its six neighbors,
holds a fort owned by `d`. -/
def fortTouchSpec (s : GameStore) (c : Coord) (d : String) : Bool :=
  fortAt s c d || (getNeighborCoords c).any (fun n => fortAt s n d)

/-- The cost formula exactly as the C1 claim states it (spec side of the
refinement): `null` when the hex is owned by `p`; otherwise
`expansion = hexValue + ⌊expGrowth·log₂(H+2)⌋`, discounted to
`max(1, ⌊cost·0.7⌋)` by river access, and against a defender `d` the
result `max(cost, expansion + occupiedBase + ⌊attackMult·√strength⌋)` with
`strength = (1 + points(d)/D_h)·D_h·(hexValue+0.5) = (D_h+points(d))·21/2`,
doubled when a fort owned by `d` touches the target. The same exact
natural-number encodings as in `computeCost` are used
(`attackMult² · strength = 525·(D_h+points(d))·f/8`, `f ∈ {1, 2}`). -/
def computeCostSpec (s : GameStore) (p : String) (c : Coord) : Option Nat :=
  if ownedBy (getHex s c) p then none
  else
    let expansion := hexValue + floorLog2 ((tilesOf s p + 2) ^ expGrowth)
    let cost :=
      if isAdjacentToRiver s c && playerHasRiverAccess s p then
        max 1 (expansion * 7 / 10)
      else expansion
    match (getHex s c).bind (fun h => h.owner) with
    | some d =>
      let dh := max 1 (tilesOf s d)
      let f := if fortTouchSpec s c d then 2 else 1
      some (max cost (expansion + occupiedBase +
        isqrt (525 * ((dh + pointsOf s d) * f) / 8)))
    | none => some cost

/-! ## Message handlers (rooms/RedisGameRoom.js)

A handler's run is modelled as a function from the store (plus the
handler-relevant fields of the in-memory room state: the sender's player
id, color and `started` flag, and the clock) to the updated store and an
outcome describing the reply the code sends:

* `ignored` — the handler returned without replying;
* `menu u` — `openOwnedTileMenu {q, r, upgrade}` was sent;
* `rejected reason` — `fillResult {q, r, ok:false, reason}` was sent;
* `captured cost` — the capture was applied, `fillResult {q, r, ok:true}`
  was sent and the hex `update` was broadcast.

The trailing `recalculatePlayerPoints` calls of the code write nothing to
the store (they refresh the in-memory room view and optionally broadcast a
`pointsUpdate`), so they are not modelled. -/

/-- The sender's player context: `getPlayerIdBySession` result plus the
fields of the room-state `Player` the handlers read. -/
structure PlayerCtx where
  id : String
  color : String
  started : Bool
deriving Repr, DecidableEq

inductive FillOutcome
  | ignored
  | menu (upgrade : String)
  | rejected (reason : String)
  | captured (cost : Nat)
deriving Repr, DecidableEq

/-- `RedisGameRoom.handleFillHex` (the drag path: no adjacency rule). -/
def handleFillHex (s : GameStore) (p : PlayerCtx) (c : Coord) (now : Nat) :
    GameStore × FillOutcome :=
  if !p.started then (s, .ignored)
  else if !isHexPassable s c then (s, .rejected "impassable")
  else
    let occupied := getHexOwner s c
    if ownedBy occupied p.id then
      (s, .menu (((occupied.map (fun h => h.upgrade))).getD ""))
    else
      let res1 := getPlayerPoints s p.id now
      let currentPoints := res1.2.points
      let res2 := computeCost res1.1 p.id c now
      match res2.2 with
      | none => (res2.1, .rejected "insufficient")
      | some cost =>
        if currentPoints < cost then (res2.1, .rejected "insufficient")
        else
          let s3 := updatePlayerPoints res2.1 p.id
            ((currentPoints : Int) - (cost : Int)) now
          let s4 := setHex s3 c (some p.id) p.color none none false now
          let s5 := saveGameEvent s4 p.id p.color c.1 c.2 "capture" now
          (s5, .captured cost)

/-- `RedisGameRoom.handleClickHex`: as `handleFillHex`, with the adjacency
rule (with river exception) checked between the cost check and the
debit. -/
def handleClickHex (s : GameStore) (p : PlayerCtx) (c : Coord) (now : Nat) :
    GameStore × FillOutcome :=
  if !p.started then (s, .ignored)
  else if !isHexPassable s c then (s, .rejected "impassable")
  else
    let occupied := getHexOwner s c
    if ownedBy occupied p.id then
      (s, .menu (((occupied.map (fun h => h.upgrade))).getD ""))
    else
      let res1 := getPlayerPoints s p.id now
      let currentPoints := res1.2.points
      let res2 := computeCost res1.1 p.id c now
      match res2.2 with
      | none => (res2.1, .rejected "insufficient")
      | some cost =>
        if currentPoints < cost then (res2.1, .rejected "insufficient")
        else
          let ownedHexes := (getAllHexes res2.1).filter
            (fun e => decide (e.2.owner = some p.id))
          let isAdjacent := ownedHexes.isEmpty ||
            ownedHexes.any (fun e =>
              (getNeighborCoords e.1).any (fun n => decide (n = c)))
          let riverException :=
            isAdjacentToRiver res2.1 c && playerHasRiverAccess res2.1 p.id
          if !isAdjacent && !riverException && !ownedHexes.isEmpty then
            (res2.1, .rejected "not_adjacent")
          else
            let s3 := updatePlayerPoints res2.1 p.id
              ((currentPoints : Int) - (cost : Int)) now
            let s4 := setHex s3 c (some p.id) p.color none none false now
            let s5 := saveGameEvent s4 p.id p.color c.1 c.2 "capture" now
            (s5, .captured cost)

/-- Outcome of `handleChooseStart`. `accepted crown` records that
`fillResult {q, r, ok:true}` was sent and the `update` broadcast carried
this `crown` flag. -/
inductive StartOutcome
  | ignored
  | rejected (reason : String)
  | accepted (crown : Bool)
deriving Repr, DecidableEq

/-- `RedisGameRoom.handleChooseStart`. The time guard
`Date.now() > lobbyStartTime + startDelay` returns silently. -/
def handleChooseStart (s : GameStore) (p : PlayerCtx)
    (lobbyStartTime : Nat) (c : Coord) (now : Nat) :
    GameStore × StartOutcome :=
  if p.started then (s, .ignored)
  else if lobbyStartTime + startDelay < now then (s, .ignored)
  else
    let occupied := getHexOwner s c
    if (occupied.map (fun h => h.owner.isSome)).getD false then
      (s, .rejected "occupied")
    else if !isHexPassable s c then (s, .rejected "impassable")
    else
      let s1 := setHex s c (some p.id) p.color none none true now
      let s2 := saveGameEvent s1 p.id p.color c.1 c.2 "start" now
      let res := getPlayerPoints s2 p.id now
      let s3 := setPlayerPoints res.1 p.id res.2.points res.2.maxPoints
        (some c.1) (some c.2) now
      (s3, .accepted true)

/-! ## Auto-expansion scan (rooms/RedisGameRoom.js, `startAutoExpand`) -/

/-- `neighbors[pid] = (neighbors[pid] || 0) + 1` on a JS object: string
keys keep insertion order, so an existing key is bumped in place and a new
key is appended. -/
def bumpOwner : List (String × Nat) → String → List (String × Nat)
  | [], p => [(p, 1)]
  | (q, n) :: rest, p =>
    if q = p then (q, n + 1) :: rest else (q, n) :: bumpOwner rest p

/-- The owners of the six neighbor hexes, in direction order (one entry
per existing neighbor hex with a non-null `playerId`). -/
def neighborOwnerList (s : GameStore) (c : Coord) : List String :=
  (getNeighborCoords c).filterMap (fun n =>
    (getHex s n).bind (fun h => h.owner))

/-- `GameData.getNeighborOwners`: the neighbor-owner histogram as the list
of `Object.entries`. -/
def getNeighborOwners (s : GameStore) (c : Coord) : List (String × Nat) :=
  (neighborOwnerList s c).foldl bumpOwner []

/-- The mutable `maxPlayer` / `maxCount` / `tie` triple of the scan. -/
structure MaxAcc where
  maxPlayer : Option String
  maxCount : Nat
  tie : Bool
deriving Repr, DecidableEq

/-- One step of the `Object.entries(neighborOwners).forEach` loop:
`cnt > maxCount` takes the new maximum and clears `tie`;
`cnt === maxCount && cnt > 0` marks a tie. -/
def maxStep (acc : MaxAcc) (e : String × Nat) : MaxAcc :=
  if acc.maxCount < e.2 then
    { maxPlayer := some e.1, maxCount := e.2, tie := false }
  else if e.2 = acc.maxCount ∧ 0 < e.2 then { acc with tie := true }
  else acc

def findMaxOwner (l : List (String × Nat)) : MaxAcc :=
  l.foldl maxStep { maxPlayer := none, maxCount := 0, tie := false }

/-- The scan's `currentOwner`: `occupied?.playerId || null`. -/
def currentOwnerAt (s : GameStore) (c : Coord) : Option String :=
  (getHexOwner s c).bind (fun h => h.owner)

/-- The scan's `allowCapture` local: an unowned tile may always be
captured; an owned one only when fully enclosed (`every` neighbor exists
and is owned by `maxPlayer`) or under the river exception. -/
def autoAllowCapture (s : GameStore) (c : Coord) (maxPlayer : String) : Bool :=
  if (currentOwnerAt s c).isNone then true
  else
    (getNeighborCoords c).all (fun n => ownedBy (getHex s n) maxPlayer) ||
      (isAdjacentToRiver s c && playerHasRiverAccess s maxPlayer)

/-- The scan's `fortProtected` local: the target holds a fort and its
owner differs from `maxPlayer`, or some neighbor hex holds a fort whose
owner differs from `maxPlayer`. -/
def autoFortProtected (s : GameStore) (c : Coord) (maxPlayer : String) : Bool :=
  (((getHexOwner s c).map (fun h =>
      decide (h.upgrade = "fort") &&
        decide (currentOwnerAt s c ≠ some maxPlayer))).getD false) ||
    (neighborHexes s c).any (fun n =>
      decide (n.upgrade = "fort") && decide (n.owner ≠ some maxPlayer))

/-- The per-candidate decision of one auto-expansion scan: returns
`some maxPlayer` exactly when the scan body pushes
`{q, r, attackerId := maxPlayer, prevOwnerId}` onto `toCapture` for this
candidate `(q, r)` (captures are applied only after the whole scan, so
every check reads the same snapshot `s`). -/
def autoExpandDecision (s : GameStore) (c : Coord) : Option String :=
  let acc := findMaxOwner (getNeighborOwners s c)
  match acc.maxPlayer with
  | none => none
  | some maxPlayer =>
    if acc.tie then none
    else if acc.maxCount < autoCaptureThreshold then none
    else if currentOwnerAt s c = some maxPlayer then none
    else if !autoAllowCapture s c maxPlayer then none
    else if autoFortProtected s c maxPlayer then none
    else if !isHexPassable s c then none
    else some maxPlayer

/-- The number of the six neighbors of `c` that exist and are owned by
`p`. -/
def neighborOwnedCount (s : GameStore) (c : Coord) (p : String) : Nat :=
  (neighborOwnerList s c).count p

/-! ## Event log (C5) and setHexUpgrade (C10) -/

/-- Replaying a list of already-built events through `saveGameEvent`, in
list order (the fields are passed exactly as `saveGameEvent` receives
them). -/
def saveEvents (s : GameStore) (evs : List Event) : GameStore :=
  evs.foldl (fun st ev =>
    saveGameEvent st ev.playerId ev.color ev.q ev.r ev.eventType
      ev.timestamp) s

/-- The empty store (a fresh game with no terrain). -/
def emptyStore : GameStore := { hexes := [], points := [], events := [] }

/-- First event of the C5 counterexample. -/
def ev1 : Event :=
  { playerId := "A", color := "#e74c3c", q := 0, r := 0,
    eventType := "capture", timestamp := 1 }

/-- Second event of the C5 counterexample. -/
def ev2 : Event :=
  { playerId := "B", color := "#3498db", q := 1, r := 0,
    eventType := "capture", timestamp := 2 }

/-- A one-hex store used by the C10 witness. -/
def oneHexStore : GameStore :=
  { hexes := [((0, 0),
      { owner := some "A", color := "#e74c3c", upgrade := "",
        terrain := "", captureTime := 5, upgradeTime := none,
        isStart := true })],
    points := [], events := [] }

/-! ## Capture handlers: support lemmas (C3, C4, C7) -/

/-- The stored points value of a player's row, if any. -/
def storedPoints (s : GameStore) (pid : String) : Option Nat :=
  (alGet s.points pid).map (fun row => row.points)

/-- The store produced by a successful single-hex capture at cost `k`:
debit, `setHex`, `capture` event (shared by both capture handlers). -/
def captureApply (s : GameStore) (p : PlayerCtx) (c : Coord) (now : Nat)
    (pts : Nat) (k : Nat) : GameStore :=
  saveGameEvent
    (setHex
      (updatePlayerPoints (computeCost s p.id c now).1 p.id
        ((pts : Int) - (k : Int)) now)
      c (some p.id) p.color none none false now)
    p.id p.color c.1 c.2 "capture" now

/-! ## Claim theorems C3, C7, C4 -/

/-- A hex owned by player `A` (their start hex). -/
def hexA : Hex :=
  { owner := some "A", color := "#e74c3c", upgrade := "", terrain := "",
    captureTime := 0, upgradeTime := none, isStart := true }

/-- An unowned river hex as written by `generateRivers`. -/
def riverHex : Hex :=
  { owner := none, color := "#87CEEB", upgrade := "", terrain := "river",
    captureTime := 0, upgradeTime := none, isStart := false }

/-- Points row of player `A`: 200 points, cap 205 (one tile). -/
def rowA : PointsRow :=
  { points := 200, maxPoints := 205, startQ := some 0, startR := some 0,
    lastUpdate := 0 }

/-- Player context of `A`, already started. -/
def pA : PlayerCtx := { id := "A", color := "#e74c3c", started := true }

/-- Store for the C3/C4 counterexamples: `A` owns `(0, 0)`, a river hex
sits at `(1, 0)`, `A` has 200 points. -/
def c4store : GameStore :=
  { hexes := [((0, 0), hexA), ((1, 0), riverHex)],
    points := [("A", rowA)], events := [] }

/-- Store for the C3 witness: `A` owns `(0, 0)` and holds exactly 17
points — the cost of the next expansion. -/
def c3wStore : GameStore :=
  { hexes := [((0, 0), hexA)],
    points := [("A",
      { points := 17, maxPoints := 205, startQ := some 0,
        startR := some 0, lastUpdate := 0 })], events := [] }

/-- Store for the C2 witness: three neighbors of `(0, 0)` owned by `A`. -/
def c2store : GameStore :=
  { hexes := [((1, 0), hexA), ((1, -1), hexA), ((0, -1), hexA)],
    points := [], events := [] }

/-! ## Economy tick (C8, rooms/RedisGameRoom.js `startPointTick`) -/

/-- The fields of a room-state player the tick body reads. -/
structure TickPlayer where
  id : String
  disconnected : Bool
deriving Repr, DecidableEq

/-- Messages a room can broadcast; used to state that the tick sends
none. -/
inductive OutMsg
  | pointsUpdate (playerId : String) (points tiles maxPoints : Nat)
deriving Repr, DecidableEq

/-- The per-player body of the tick: skip disconnected players, else read
the current points and write `current + baseIncome` through
`updatePlayerPoints` (which clamps at the recomputed cap). -/
def tickStep (now : Nat) (st : GameStore) (pl : TickPlayer) : GameStore :=
  if pl.disconnected then st
  else
    updatePlayerPoints (getPlayerPoints st pl.id now).1 pl.id
      (((getPlayerPoints st pl.id now).2.points : Int) +
        (baseIncome : Int)) now

/-- One firing of the 1-second `setInterval` in `startPointTick`: iterate
the state players in order; the body contains no `broadcast`/`send`, so
the emitted message list is empty. -/
def pointTickOnce (s : GameStore) (players : List TickPlayer) (now : Nat) :
    GameStore × List OutMsg :=
  (players.foldl (tickStep now) s, [])

/-- Store for the C8 witness: `A` (connected, 200 points, one tile) and
`B` (disconnected, 50 points). -/
def tickStore : GameStore :=
  { hexes := [((0, 0), hexA)],
    points := [("A", rowA),
      ("B", { points := 50, maxPoints := 200, startQ := none,
              startR := none, lastUpdate := 0 })],
    events := [] }

/-! ## Registration endpoint (C9, redis-server.js `POST /api/register`) -/

/-- JavaScript `String.prototype.trim`, modelled over the character list
(core `String.trim` does not evaluate inside the kernel). -/
def jsTrim (s : String) : String :=
  String.mk (((s.data.dropWhile (fun ch => ch.isWhitespace)).reverse.dropWhile
    (fun ch => ch.isWhitespace)).reverse)

/-- JavaScript `String.prototype.slice(0, n)`, modelled over the
character list. -/
def jsSlice (s : String) (n : Nat) : String := String.mk (s.data.take n)

/-- One stored player record (`players:<id>:data`), listed in
`players:active` order. -/
structure PlayerRec where
  id : String
  username : String
  color : String
  createdAt : Nat
  lastSeen : Nat
deriving Repr, DecidableEq

/-- The player registry: records in `zrange('players:active', 0, -1)`
order (insertion order, since scores are creation timestamps). -/
structure Registry where
  players : List PlayerRec
deriving Repr, DecidableEq

/-- Result of the endpoint, carrying the JSON response fields.
`badInput` is the HTTP 400 rejection. -/
inductive RegisterResult
  | badInput
  | existing (playerId token username color : String)
  | created (playerId token username color : String)
deriving Repr, DecidableEq

/-- `GameData.createPlayer`: trims and truncates the username once more,
draws the color from the fixed palette, appends the record. The fresh
`player:<ts>:<rand>` id and the palette index drawn from `Math.random()`
are explicit parameters. -/
def createPlayer (st : Registry) (username : String) (newId : String)
    (colorIdx : Fin playerColors.length) (now : Nat) : Registry :=
  { players := st.players ++
      [{ id := newId, username := jsSlice (jsTrim username) 24,
         color := playerColors.get colorIdx, createdAt := now,
         lastSeen := now }] }

/-- `POST /api/register`: reject usernames whose trim is shorter than 2;
otherwise scan the active players for one whose stored username equals
the cleaned name (JavaScript `===` — an exact, case-sensitive match) and
return it with a fresh token `sign(id)`; otherwise create a new player.
The `lastSeen` touch of the existing branch writes to a stray
`player:<id>` key outside the modelled layout and is omitted. -/
def register (st : Registry) (username : String) (newId : String)
    (colorIdx : Fin playerColors.length) (sign : String → String)
    (now : Nat) : Registry × RegisterResult :=
  if (jsTrim username).length < 2 then (st, .badInput)
  else
    let clean := jsSlice (jsTrim username) 24
    match st.players.find? (fun pl => decide (pl.username = clean)) with
    | some pl => (st, .existing pl.id (sign pl.id) pl.username pl.color)
    | none =>
      (createPlayer st clean newId colorIdx now,
        .created newId (sign newId) clean (playerColors.get colorIdx))

/-- The stored record of player `"Ab"`. -/
def recAb : PlayerRec :=
  { id := "player:1:a", username := "Ab", color := "#3498db",
    createdAt := 0, lastSeen := 0 }

/-- A registry holding one player named `"Ab"`. -/
def regAB : Registry := { players := [recAb] }

/-! ## Theorems -/

theorem isqrtAux_le (fuel n k : Nat) (hk : k * k ≤ n) :
    isqrtAux fuel n k * isqrtAux fuel n k ≤ n := by
  induction fuel generalizing k with
  | zero => simpa [isqrtAux] using hk
  | succ fuel ih =>
    by_cases h : (k + 1) * (k + 1) ≤ n
    · simpa [isqrtAux, h] using ih (k + 1) h
    · simpa [isqrtAux, h] using hk

theorem isqrtAux_upper (fuel n k : Nat)
    (hfuel : n < (k + fuel + 1) * (k + fuel + 1)) :
    n < (isqrtAux fuel n k + 1) * (isqrtAux fuel n k + 1) := by
  induction fuel generalizing k with
  | zero => simpa [isqrtAux] using hfuel
  | succ fuel ih =>
    by_cases h : (k + 1) * (k + 1) ≤ n
    · have harith : k + 1 + fuel + 1 = k + (fuel + 1) + 1 := by omega
      have := ih (k + 1) (by rw [harith]; exact hfuel)
      simpa [isqrtAux, h] using this
    · simpa [isqrtAux, h] using Nat.lt_of_not_le h

/-- `isqrt` is the integer square root: `isqrt n = ⌊√n⌋`. -/
theorem isqrt_spec (n : Nat) :
    isqrt n * isqrt n ≤ n ∧ n < (isqrt n + 1) * (isqrt n + 1) := by
  refine ⟨isqrtAux_le n n 0 (by simp), ?_⟩
  exact isqrtAux_upper n n 0 (by nlinarith)

theorem floorLog2Aux_spec (fuel m : Nat) (h1 : 1 ≤ m) (h2 : m ≤ fuel) :
    2 ^ floorLog2Aux fuel m ≤ m ∧ m < 2 ^ (floorLog2Aux fuel m + 1) := by
  induction fuel generalizing m with
  | zero => omega
  | succ fuel ih =>
    by_cases h : 2 ≤ m
    · have hdiv1 : 1 ≤ m / 2 := by omega
      have hdiv2 : m / 2 ≤ fuel := by omega
      obtain ⟨ha, hb⟩ := ih (m / 2) hdiv1 hdiv2
      have e1 : 2 ^ (floorLog2Aux fuel (m / 2) + 1) =
          2 ^ floorLog2Aux fuel (m / 2) * 2 := Nat.pow_succ ..
      have e2 : 2 ^ (floorLog2Aux fuel (m / 2) + 1 + 1) =
          2 ^ (floorLog2Aux fuel (m / 2) + 1) * 2 := Nat.pow_succ ..
      simp only [floorLog2Aux, h, if_true]
      constructor
      · rw [e1]; omega
      · rw [e2, e1]; omega
    · have hm : m = 1 := by omega
      simp [floorLog2Aux, h, hm]

/-- `floorLog2` is the floor of the base-2 logarithm on positive inputs:
`2 ^ floorLog2 m ≤ m < 2 ^ (floorLog2 m + 1)`. -/
theorem floorLog2_spec (m : Nat) (h1 : 1 ≤ m) :
    2 ^ floorLog2 m ≤ m ∧ m < 2 ^ (floorLog2 m + 1) :=
  floorLog2Aux_spec m m h1 (Nat.le_refl m)

theorem alGet_alSet_self {α β : Type} [DecidableEq α]
    (l : List (α × β)) (k : α) (v : β) : alGet (alSet l k v) k = some v := by
  induction l with
  | nil => simp [alGet, alSet]
  | cons e rest ih =>
    obtain ⟨k0, v0⟩ := e
    by_cases h : k0 = k
    · simp [alGet, alSet, h, List.find?]
    · simpa [alGet, alSet, h, List.find?] using ih

theorem alGet_alSet_other {α β : Type} [DecidableEq α]
    (l : List (α × β)) (k k' : α) (v : β) (hne : k' ≠ k) :
    alGet (alSet l k v) k' = alGet l k' := by
  induction l with
  | nil => simp [alGet, alSet, List.find?, Ne.symm hne]
  | cons e rest ih =>
    obtain ⟨k0, v0⟩ := e
    by_cases h : k0 = k
    · subst h
      simp [alGet, alSet, List.find?, Ne.symm hne, hne]
    · by_cases h' : k0 = k'
      · subst h'
        simp [alGet, alSet, List.find?, h]
      · simpa [alGet, alSet, h, List.find?, h'] using ih

/-! ### Store-shape lemmas -/

theorem getPlayerPoints_hexes (s : GameStore) (pid : String) (now : Nat) :
    (getPlayerPoints s pid now).1.hexes = s.hexes := by
  unfold getPlayerPoints
  cases alGet s.points pid <;> rfl

theorem getPlayerPoints_events (s : GameStore) (pid : String) (now : Nat) :
    (getPlayerPoints s pid now).1.events = s.events := by
  unfold getPlayerPoints
  cases alGet s.points pid <;> rfl

/-- When the row already exists, `getPlayerPoints` writes nothing. -/
theorem getPlayerPoints_of_mem (s : GameStore) (pid : String) (now : Nat)
    (row : PointsRow) (h : alGet s.points pid = some row) :
    getPlayerPoints s pid now =
      (s, { row with maxPoints := calculateMaxPoints s pid }) := by
  unfold getPlayerPoints
  rw [h]

/-- The points value returned by `getPlayerPoints`: stored value, or the
default `startingPoints` when the row is absent. -/
theorem getPlayerPoints_points (s : GameStore) (pid : String) (now : Nat) :
    (getPlayerPoints s pid now).2.points =
      ((alGet s.points pid).map (fun row => row.points)).getD
        startingPoints := by
  unfold getPlayerPoints
  cases alGet s.points pid <;> rfl

/-- `getPlayerPoints` never touches another player's row. -/
theorem getPlayerPoints_other (s : GameStore) (pid : String) (now : Nat)
    (pid' : String) (hne : pid' ≠ pid) :
    alGet (getPlayerPoints s pid now).1.points pid' =
      alGet s.points pid' := by
  unfold getPlayerPoints
  cases h : alGet s.points pid with
  | none => simpa [setPlayerPoints] using alGet_alSet_other s.points pid pid' _ hne
  | some row => rfl

theorem updatePlayerPoints_hexes (s : GameStore) (pid : String)
    (v : Int) (now : Nat) :
    (updatePlayerPoints s pid v now).hexes = s.hexes := by
  unfold updatePlayerPoints setPlayerPoints
  simp [getPlayerPoints_hexes]

theorem updatePlayerPoints_events (s : GameStore) (pid : String)
    (v : Int) (now : Nat) :
    (updatePlayerPoints s pid v now).events = s.events := by
  unfold updatePlayerPoints setPlayerPoints
  simp [getPlayerPoints_events]

/-- `updatePlayerPoints` never touches another player's row. -/
theorem updatePlayerPoints_other (s : GameStore) (pid : String)
    (v : Int) (now : Nat) (pid' : String) (hne : pid' ≠ pid) :
    alGet (updatePlayerPoints s pid v now).points pid' =
      alGet s.points pid' := by
  unfold updatePlayerPoints setPlayerPoints
  simp only []
  rw [alGet_alSet_other _ _ _ _ hne]
  exact getPlayerPoints_other s pid now pid' hne

/-- The row written by `updatePlayerPoints` on an existing row: the clamp
`max 0 (min new cap)` with `cap = calculateMaxPoints`. -/
theorem updatePlayerPoints_row (s : GameStore) (pid : String) (v : Int)
    (now : Nat) (row : PointsRow) (h : alGet s.points pid = some row) :
    alGet (updatePlayerPoints s pid v now).points pid =
      some { points := (max 0 (min v (calculateMaxPoints s pid : Int))).toNat,
             maxPoints := calculateMaxPoints s pid,
             startQ := row.startQ,
             startR := row.startR,
             lastUpdate := now } := by
  unfold updatePlayerPoints setPlayerPoints
  rw [getPlayerPoints_of_mem s pid now row h]
  simpa using alGet_alSet_self ..

theorem getHex_getPlayerPoints (s : GameStore) (pid : String) (now : Nat)
    (c : Coord) : getHex (getPlayerPoints s pid now).1 c = getHex s c := by
  unfold getHex
  rw [getPlayerPoints_hexes]

theorem neighborHexes_getPlayerPoints (s : GameStore) (pid : String)
    (now : Nat) (c : Coord) :
    neighborHexes (getPlayerPoints s pid now).1 c = neighborHexes s c := by
  unfold neighborHexes
  refine List.filterMap_congr (fun n _ => ?_)
  exact getHex_getPlayerPoints s pid now n

theorem any_filterMap {α β : Type} (l : List α) (f : α → Option β)
    (p : β → Bool) :
    (l.filterMap f).any p = l.any (fun a => (((f a).map p).getD false)) := by
  induction l with
  | nil => rfl
  | cons a t ih => cases h : f a <;> simp [List.filterMap_cons, h, ih]

/-- C1. For every game state, every attacker `p` and every target hex
`(q, r)`: `computeCost(p, q, r)` returns `null` when the hex is owned by
`p`; otherwise it returns `expansion = hexValue + ⌊expGrowth·log₂(H+2)⌋`
(`H` = hexes owned by `p`); if the target is adjacent to a river and `p`
has river access the cost becomes `max(1, ⌊cost·0.7⌋)`; and if the target
is owned by another player `d` the result is
`max(cost, expansion + occupiedBase + ⌊attackMult·√strength⌋)` with
`strength = (1 + points(d)/D_h)·D_h·(hexValue+0.5)`, `D_h = max(1,
tiles(d))`, strength doubled when the target hex or any of its six
neighbors holds a fort owned by `d` — that is, the value `computeCost`
returns is exactly the claim's formula `computeCostSpec`. -/
theorem computeCost_eq_spec (s : GameStore) (p : String) (c : Coord)
    (now : Nat) : (computeCost s p c now).2 = computeCostSpec s p c := by
  unfold computeCost computeCostSpec getHexOwner
  cases hb : ownedBy (getHex s c) p with
  | true => simp [hb]
  | false =>
    simp only [hb, Bool.false_eq_true, if_false]
    cases hocc : getHex s c with
    | none => simp [tilesOf]
    | some oh =>
      cases hown : oh.owner with
      | none => simp [hown, tilesOf]
      | some d =>
        have hdp : d ≠ p := by
          intro h
          rw [hocc] at hb
          simp [ownedBy, hown, h] at hb
        simp only [Option.bind_eq_bind, Option.some_bind, hown, hdp,
          if_false, tilesOf]
        have hpoints : (getPlayerPoints s d now).2.points = pointsOf s d :=
          getPlayerPoints_points s d now
        have hfort :
            (decide (oh.upgrade = "fort") ||
              (neighborHexes (getPlayerPoints s d now).1 c).any (fun n =>
                decide (n.upgrade = "fort") && decide (n.owner = some d))) =
            fortTouchSpec s c d := by
          rw [neighborHexes_getPlayerPoints]
          unfold fortTouchSpec fortAt neighborHexes
          rw [any_filterMap]
          simp [hocc, hown]
        rw [hpoints, hfort]
        have harith :
            25 * ((if fortTouchSpec s c d then 42 else 21) *
                (max 1 (getHexCountForPlayer s d) + pointsOf s d)) / 8 =
            525 * ((max 1 (getHexCountForPlayer s d) + pointsOf s d) *
                (if fortTouchSpec s c d then 2 else 1)) / 8 := by
          cases fortTouchSpec s c d <;> simp <;> ring_nf
        rw [harith]

/-- Sanity check against spec §8 scenario 2: one owned tile gives
`expansion = 10 + ⌊5·log₂ 3⌋ = 17`. -/
theorem expansion_scenario : hexValue + floorLog2 ((1 + 2) ^ expGrowth) = 17 := by
  decide

/-- Sanity check against spec §8 scenario 3: `D_h = 3`, `points(d) = 200`,
no fort: `⌊2.5·√strength⌋ = 115`. -/
theorem attackBonus_scenario : isqrt (525 * ((3 + 200) * 1) / 8) = 115 := by
  decide

/-- Sanity check against spec §8 scenario 4: with the fort doubling,
`⌊2.5·√strength⌋ = 163`. -/
theorem attackBonus_fort_scenario : isqrt (525 * ((3 + 200) * 2) / 8) = 163 := by
  decide

/-! ### Histogram lemmas -/

theorem alGet_bumpOwner_self (L : List (String × Nat)) (p : String) :
    alGet (bumpOwner L p) p = some ((alGet L p).getD 0 + 1) := by
  induction L with
  | nil => simp [bumpOwner, alGet, List.find?]
  | cons e rest ih =>
    obtain ⟨q, n⟩ := e
    by_cases h : q = p
    · subst h
      simp [bumpOwner, alGet, List.find?]
    · simpa [bumpOwner, alGet, List.find?, h] using ih

theorem alGet_bumpOwner_other (L : List (String × Nat)) (p q : String)
    (hne : q ≠ p) : alGet (bumpOwner L p) q = alGet L q := by
  induction L with
  | nil => simp [bumpOwner, alGet, List.find?, Ne.symm hne]
  | cons e rest ih =>
    obtain ⟨k, n⟩ := e
    by_cases h : k = p
    · subst h
      simp [bumpOwner, alGet, List.find?, Ne.symm hne, hne]
    · by_cases h2 : k = q
      · subst h2
        simp [bumpOwner, alGet, List.find?, h]
      · simpa [bumpOwner, alGet, List.find?, h, h2] using ih

theorem mem_keys_bumpOwner (L : List (String × Nat)) (p a : String) :
    a ∈ (bumpOwner L p).map Prod.fst ↔ a ∈ L.map Prod.fst ∨ a = p := by
  induction L with
  | nil => simp [bumpOwner]
  | cons e rest ih =>
    obtain ⟨k, n⟩ := e
    by_cases h : k = p
    · subst h
      simp [bumpOwner]
      tauto
    · simp [bumpOwner, h, ih]
      tauto

theorem keysNodup_bumpOwner (L : List (String × Nat)) (p : String)
    (h : (L.map Prod.fst).Nodup) : ((bumpOwner L p).map Prod.fst).Nodup := by
  induction L with
  | nil => simp [bumpOwner]
  | cons e rest ih =>
    obtain ⟨k, n⟩ := e
    simp only [List.map_cons, List.nodup_cons] at h
    by_cases hk : k = p
    · subst hk
      simpa [bumpOwner, List.nodup_cons] using h
    · simp only [bumpOwner, hk, if_false, List.map_cons, List.nodup_cons]
      refine ⟨?_, ih h.2⟩
      rw [mem_keys_bumpOwner]
      push_neg
      exact ⟨h.1, hk⟩

theorem foldl_bump_getD (l : List String) (L : List (String × Nat))
    (p : String) :
    (alGet (l.foldl bumpOwner L) p).getD 0 =
      (alGet L p).getD 0 + l.count p := by
  induction l generalizing L with
  | nil => simp
  | cons a l ih =>
    rw [List.foldl_cons, ih]
    by_cases h : a = p
    · subst h
      rw [alGet_bumpOwner_self]
      simp [List.count_cons]
      omega
    · rw [alGet_bumpOwner_other L a p (Ne.symm h)]
      simp [List.count_cons, h]

theorem foldl_bump_none (l : List String) (L : List (String × Nat))
    (p : String) (h : alGet (l.foldl bumpOwner L) p = none) : p ∉ l := by
  intro hmem
  have hcount : 0 < l.count p := List.count_pos_iff.mpr hmem
  have := foldl_bump_getD l L p
  rw [h] at this
  simp at this
  omega

theorem keysNodup_foldl_bump (l : List String) (L : List (String × Nat))
    (h : (L.map Prod.fst).Nodup) :
    ((l.foldl bumpOwner L).map Prod.fst).Nodup := by
  induction l generalizing L with
  | nil => simpa
  | cons a l ih => exact ih _ (keysNodup_bumpOwner L a h)

theorem alGet_mem {β : Type} (L : List (String × β)) (q : String) (v : β)
    (h : alGet L q = some v) : (q, v) ∈ L := by
  unfold alGet at h
  cases hf : L.find? (fun e => decide (e.1 = q)) with
  | none => rw [hf] at h; simp at h
  | some e =>
    rw [hf] at h
    have hmem := List.mem_of_find?_eq_some hf
    have hpred := List.find?_some hf
    obtain ⟨k, v0⟩ := e
    simp at hpred h
    subst hpred
    subst h
    exact hmem

/-- The histogram value at `p` is the number of neighbors owned by `p`. -/
theorem getNeighborOwners_getD (s : GameStore) (c : Coord) (p : String) :
    (alGet (getNeighborOwners s c) p).getD 0 =
      (neighborOwnerList s c).count p := by
  unfold getNeighborOwners
  rw [foldl_bump_getD]
  simp [alGet]

theorem getNeighborOwners_keysNodup (s : GameStore) (c : Coord) :
    ((getNeighborOwners s c).map Prod.fst).Nodup := by
  unfold getNeighborOwners
  exact keysNodup_foldl_bump _ _ (by simp)

/-- With pairwise-distinct keys, every entry is what `alGet` returns. -/
theorem mem_alGet_of_keysNodup {β : Type} (L : List (String × β))
    (e : String × β) (hN : (L.map Prod.fst).Nodup) (h : e ∈ L) :
    alGet L e.1 = some e.2 := by
  induction L with
  | nil => simp at h
  | cons x rest ih =>
    simp only [List.map_cons, List.nodup_cons] at hN
    rcases List.mem_cons.mp h with hx | hx
    · subst hx
      simp [alGet, List.find?]
    · have hkx : ¬x.1 = e.1 := fun hk =>
        hN.1 (hk ▸ List.mem_map_of_mem Prod.fst hx)
      simpa [alGet, List.find?, hkx] using ih hN.2 hx

/-- Every entry of the histogram carries the count of its key. -/
theorem getNeighborOwners_mem_count (s : GameStore) (c : Coord)
    (e : String × Nat) (h : e ∈ getNeighborOwners s c) :
    e.2 = (neighborOwnerList s c).count e.1 := by
  have hget := mem_alGet_of_keysNodup _ e (getNeighborOwners_keysNodup s c) h
  rw [← getNeighborOwners_getD s c e.1, hget]
  rfl

/-! ### Max-scan lemmas -/

theorem maxStep_mono (acc : MaxAcc) (e : String × Nat) :
    acc.maxCount ≤ (maxStep acc e).maxCount := by
  unfold maxStep
  split
  · simp
    omega
  · split <;> simp

theorem maxStep_ge (acc : MaxAcc) (e : String × Nat) :
    e.2 ≤ (maxStep acc e).maxCount := by
  unfold maxStep
  split
  · exact Nat.le_refl e.2
  · split
    · show e.2 ≤ acc.maxCount
      omega
    · show e.2 ≤ acc.maxCount
      omega

/-- The invariant of the `forEach` scan for `maxPlayer`/`maxCount`/`tie`:
the final count dominates the accumulator and every processed entry; with
no tie, every positive entry realizing the final count is the final
player; and either the result is the untouched accumulator or it comes
from an entry that strictly exceeded the accumulator's count. -/
theorem foldl_maxStep_spec (l : List (String × Nat)) (acc : MaxAcc) :
    acc.maxCount ≤ (l.foldl maxStep acc).maxCount ∧
    (∀ e ∈ l, e.2 ≤ (l.foldl maxStep acc).maxCount) ∧
    ((l.foldl maxStep acc).tie = false →
      ∀ e ∈ l, 0 < e.2 → e.2 = (l.foldl maxStep acc).maxCount →
        (l.foldl maxStep acc).maxPlayer = some e.1) ∧
    (((l.foldl maxStep acc).maxPlayer = acc.maxPlayer ∧
        (l.foldl maxStep acc).maxCount = acc.maxCount ∧
        ((l.foldl maxStep acc).tie = false → acc.tie = false)) ∨
      ∃ e ∈ l, (l.foldl maxStep acc).maxPlayer = some e.1 ∧
        (l.foldl maxStep acc).maxCount = e.2 ∧ acc.maxCount < e.2) := by
  induction l generalizing acc with
  | nil => simp
  | cons x l ih =>
    simp only [List.foldl_cons]
    obtain ⟨ih1, ih2, ih3, ih4⟩ := ih (maxStep acc x)
    refine ⟨le_trans (maxStep_mono acc x) ih1, ?_, ?_, ?_⟩
    · intro e he
      rcases List.mem_cons.mp he with he | he
      · subst he
        exact le_trans (maxStep_ge acc e) ih1
      · exact ih2 e he
    · intro htie e he hpos hcnt
      rcases List.mem_cons.mp he with he | he
      · subst he
        by_cases hA : acc.maxCount < e.2
        · have hacc : maxStep acc e = ⟨some e.1, e.2, false⟩ := by
            unfold maxStep
            rw [if_pos hA]
          rcases ih4 with ⟨hmp, hmc, _⟩ | ⟨e1, _, _, hc1, hlt1⟩
          · rw [hmp, hacc]
          · have hcm : (maxStep acc e).maxCount = e.2 := by rw [hacc]
            omega
        · by_cases hB : e.2 = acc.maxCount ∧ 0 < e.2
          · have hacc : maxStep acc e = { acc with tie := true } := by
              unfold maxStep
              rw [if_neg hA, if_pos hB]
            rcases ih4 with ⟨_, _, htr⟩ | ⟨e1, _, _, hc1, hlt1⟩
            · have hfalse := htr htie
              rw [hacc] at hfalse
              simp at hfalse
            · have hcm : (maxStep acc e).maxCount = acc.maxCount := by
                rw [hacc]
              omega
          · have hcm := le_trans (maxStep_mono acc e) ih1
            omega
      · exact ih3 htie e he hpos hcnt
    · by_cases hA : acc.maxCount < x.2
      · have hacc : maxStep acc x = ⟨some x.1, x.2, false⟩ := by
          unfold maxStep
          rw [if_pos hA]
        have hpl : (maxStep acc x).maxPlayer = some x.1 := by rw [hacc]
        have hcm : (maxStep acc x).maxCount = x.2 := by rw [hacc]
        rcases ih4 with ⟨hmp, hmc, _⟩ | ⟨e1, he1, hm1, hc1, hlt1⟩
        · right
          exact ⟨x, List.mem_cons_self x l, hmp.trans hpl, hmc.trans hcm, hA⟩
        · right
          exact ⟨e1, List.mem_cons_of_mem x he1, hm1, hc1, by omega⟩
      · by_cases hB : x.2 = acc.maxCount ∧ 0 < x.2
        · have hacc : maxStep acc x = { acc with tie := true } := by
            unfold maxStep
            rw [if_neg hA, if_pos hB]
          have hpl : (maxStep acc x).maxPlayer = acc.maxPlayer := by rw [hacc]
          have hcm : (maxStep acc x).maxCount = acc.maxCount := by rw [hacc]
          have hti : (maxStep acc x).tie = true := by rw [hacc]
          rcases ih4 with ⟨hmp, hmc, htr⟩ | ⟨e1, he1, hm1, hc1, hlt1⟩
          · left
            refine ⟨hmp.trans hpl, hmc.trans hcm, fun h => ?_⟩
            have hfalse := htr h
            rw [hti] at hfalse
            simp at hfalse
          · right
            exact ⟨e1, List.mem_cons_of_mem x he1, hm1, hc1, by omega⟩
        · have hacc : maxStep acc x = acc := by
            unfold maxStep
            rw [if_neg hA, if_neg hB]
          rw [hacc] at ih4 ⊢
          rcases ih4 with hL | ⟨e1, he1, hm1, hc1, hlt1⟩
          · left
            exact hL
          · right
            exact ⟨e1, List.mem_cons_of_mem x he1, hm1, hc1, hlt1⟩

/-- When `allowCapture` is true and the tile has an owner, the tile is
fully enclosed or the river exception applies. -/
theorem autoAllowCapture_owned (s : GameStore) (c : Coord) (p : String)
    (hallow : autoAllowCapture s c p = true)
    (hsome : (currentOwnerAt s c).isSome) :
    (getNeighborCoords c).all (fun n => ownedBy (getHex s n) p) = true ∨
      (isAdjacentToRiver s c = true ∧ playerHasRiverAccess s p = true) := by
  unfold autoAllowCapture at hallow
  have hnotnone : ¬((currentOwnerAt s c).isNone = true) := by
    rw [Option.isNone_iff_eq_none]
    intro hno
    rw [hno] at hsome
    simp at hsome
  rw [if_neg hnotnone, Bool.or_eq_true] at hallow
  rcases hallow with h1 | h1
  · exact Or.inl h1
  · rw [Bool.and_eq_true] at h1
    exact Or.inr h1

/-- When `fortProtected` is false, any fort on the target is the
capturer's, and so is any fort on a neighbor. -/
theorem autoFortProtected_false (s : GameStore) (c : Coord) (p : String)
    (hfort : autoFortProtected s c p = false) :
    (∀ hx, getHex s c = some hx → hx.upgrade = "fort" →
      hx.owner = some p) ∧
    (∀ n ∈ neighborHexes s c, n.upgrade = "fort" → n.owner = some p) := by
  unfold autoFortProtected getHexOwner at hfort
  rw [Bool.or_eq_false_iff] at hfort
  obtain ⟨htarget, hnb⟩ := hfort
  constructor
  · intro hx hhx hup
    by_cases howner : hx.owner = some p
    · exact howner
    · exfalso
      rw [hhx] at htarget
      simp only [Option.map_some', Option.getD_some] at htarget
      have hdec : decide (hx.upgrade = "fort") = true := by simp [hup]
      rw [hdec, Bool.true_and, decide_eq_false_iff_not, not_not] at htarget
      unfold currentOwnerAt getHexOwner at htarget
      rw [hhx] at htarget
      simp only [Option.some_bind] at htarget
      exact howner htarget
  · intro n hn hup
    rw [List.any_eq_false] at hnb
    have hfalse := hnb n hn
    by_cases howner : n.owner = some p
    · exact howner
    · exfalso
      apply hfalse
      rw [Bool.and_eq_true]
      exact ⟨by simp [hup], by simpa using howner⟩

/-- When `isHexPassable` holds, a stored hex is not a mountain. -/
theorem isHexPassable_terrain (s : GameStore) (c : Coord)
    (hpass : isHexPassable s c = true) (hx : Hex)
    (hhx : getHex s c = some hx) : hx.terrain ≠ "mountain" := by
  unfold isHexPassable at hpass
  rw [hhx] at hpass
  simpa using hpass

/-- Inversion of the capture decision: every guard on the path to
`toCapture.push` holds. -/
theorem autoExpandDecision_facts (s : GameStore) (c : Coord) (p : String)
    (h : autoExpandDecision s c = some p) :
    (findMaxOwner (getNeighborOwners s c)).maxPlayer = some p ∧
    (findMaxOwner (getNeighborOwners s c)).tie = false ∧
    autoCaptureThreshold ≤ (findMaxOwner (getNeighborOwners s c)).maxCount ∧
    currentOwnerAt s c ≠ some p ∧
    autoAllowCapture s c p = true ∧
    autoFortProtected s c p = false ∧
    isHexPassable s c = true := by
  simp only [autoExpandDecision] at h
  split at h
  · simp at h
  rename_i mp hmp
  split at h
  · simp at h
  rename_i ht
  split at h
  · simp at h
  rename_i hcnt
  split at h
  · simp at h
  rename_i hown
  split at h
  · simp at h
  rename_i hallow
  split at h
  · simp at h
  rename_i hfort
  split at h
  · simp at h
  rename_i hpass
  simp only [Option.some.injEq] at h
  subst h
  exact ⟨hmp, by simpa using ht, by omega, hown,
    by simpa using hallow, by simpa using hfort, by simpa using hpass⟩

/-- C2. In every auto-expansion scan, a tile is captured only if a single
player strictly owns the maximum count of its six neighbors and that count
is at least `autoCaptureThreshold` (3), with no capture on any tie; a tile
already owned by a different player is captured only if all six of its
neighbors are owned by the capturing player, or the tile is adjacent to a
river and the capturing player has river access; no tile is captured if
the target holds a fort owned by a player other than the capturer or any
neighboring hex holds a fort owned by a player other than the capturer;
and a tile whose terrain is mountain is never captured. -/
theorem autoExpand_capture_invariants (s : GameStore) (c : Coord)
    (p : String) (h : autoExpandDecision s c = some p) :
    (autoCaptureThreshold ≤ neighborOwnedCount s c p ∧
      ∀ q, q ≠ p → neighborOwnedCount s c q < neighborOwnedCount s c p) ∧
    (∀ d, currentOwnerAt s c = some d → d ≠ p →
      ((getNeighborCoords c).all (fun n => ownedBy (getHex s n) p) = true ∨
        (isAdjacentToRiver s c = true ∧ playerHasRiverAccess s p = true))) ∧
    (∀ hx, getHex s c = some hx → hx.upgrade = "fort" →
      hx.owner = some p) ∧
    (∀ n ∈ neighborHexes s c, n.upgrade = "fort" → n.owner = some p) ∧
    (∀ hx, getHex s c = some hx → hx.terrain ≠ "mountain") := by
  obtain ⟨hmp, ht, hcnt, hown, hallow, hfort, hpass⟩ :=
    autoExpandDecision_facts s c p h
  have hfold : findMaxOwner (getNeighborOwners s c) =
      (getNeighborOwners s c).foldl maxStep ⟨none, 0, false⟩ := rfl
  rw [hfold] at hmp ht hcnt
  obtain ⟨hmono, hbound, huniq, horigin⟩ :=
    foldl_maxStep_spec (getNeighborOwners s c) ⟨none, 0, false⟩
  refine ⟨?_, ?_, (autoFortProtected_false s c p hfort).1,
    (autoFortProtected_false s c p hfort).2, ?_⟩
  · rcases horigin with ⟨hpl, _, _⟩ | ⟨e, he, hm1, hc1, hpos⟩
    · rw [hmp] at hpl
      simp at hpl
    · have hep : e.1 = p := by
        rw [hmp] at hm1
        exact (Option.some.injEq _ _).mp hm1.symm
      have hcp : ((getNeighborOwners s c).foldl maxStep
          ⟨none, 0, false⟩).maxCount = neighborOwnedCount s c p := by
        rw [hc1, getNeighborOwners_mem_count s c e he, hep]
        rfl
      constructor
      · rw [hcp] at hcnt
        exact hcnt
      · intro q hq
        by_cases hqpos : 0 < (neighborOwnerList s c).count q
        · have hgetD := getNeighborOwners_getD s c q
          cases halq : alGet (getNeighborOwners s c) q with
          | none =>
            rw [halq] at hgetD
            simp at hgetD
            omega
          | some v =>
            rw [halq] at hgetD
            simp at hgetD
            have hmem : (q, v) ∈ getNeighborOwners s c :=
              alGet_mem _ q v halq
            have hle := hbound (q, v) hmem
            rw [hcp] at hle
            have hne : v ≠ neighborOwnedCount s c p := by
              intro heq2
              have huq := huniq ht (q, v) hmem (by omega)
                (by rw [hcp]; exact heq2)
              rw [hmp] at huq
              have hpq : p = q := by simpa using huq
              exact hq hpq.symm
            have hq2 : neighborOwnedCount s c q = v := hgetD.symm
            omega
        · have hq0 : neighborOwnedCount s c q = 0 := by
            unfold neighborOwnedCount
            omega
          rw [hcp] at hcnt
          have h3 : (3 : Nat) ≤ neighborOwnedCount s c p := hcnt
          omega
  · intro d hd hdp
    exact autoAllowCapture_owned s c p hallow (by rw [hd]; rfl)
  · intro hx hhx
    exact isHexPassable_terrain s c hpass hx hhx

theorem take_append_take {α : Type} (l m : List α) (n : Nat) :
    (l ++ m.take n).take n = (l ++ m).take n := by
  rw [List.take_append_eq_append_take, List.take_append_eq_append_take,
    List.take_take]
  rw [Nat.min_eq_left (Nat.sub_le n l.length)]

theorem saveEvents_events (s : GameStore) (evs : List Event)
    (hlen : s.events.length ≤ 10000) :
    (saveEvents s evs).events = (evs.reverse ++ s.events).take 10000 ∧
      (saveEvents s evs).events.length ≤ 10000 := by
  induction evs generalizing s with
  | nil =>
    constructor
    · simp [saveEvents, List.take_of_length_le hlen]
    · simpa [saveEvents] using hlen
  | cons e evs ih =>
    have hstep : (saveGameEvent s e.playerId e.color e.q e.r e.eventType
        e.timestamp).events = (e :: s.events).take 10000 := rfl
    have hlen2 : (saveGameEvent s e.playerId e.color e.q e.r e.eventType
        e.timestamp).events.length ≤ 10000 := by
      rw [hstep]
      simp
    obtain ⟨ih1, ih2⟩ := ih (saveGameEvent s e.playerId e.color e.q e.r
      e.eventType e.timestamp) hlen2
    have hsave : saveEvents s (e :: evs) =
        saveEvents (saveGameEvent s e.playerId e.color e.q e.r e.eventType
          e.timestamp) evs := rfl
    constructor
    · rw [hsave, ih1, hstep, take_append_take]
      simp
    · rw [hsave]
      exact ih2

/-- C5 (amended): after any sequence of `saveGameEvent` calls on a store
whose event list is within the cap, `getGameEvents` returns the events
NEWEST-first — the reverse of insertion order — with at most 10,000
retained and the oldest trimmed first. -/
theorem getGameEvents_newest_first (s : GameStore) (evs : List Event)
    (hlen : s.events.length ≤ 10000) :
    getGameEvents (saveEvents s evs) =
        (evs.reverse ++ getGameEvents s).take 10000 ∧
      (getGameEvents (saveEvents s evs)).length ≤ 10000 :=
  saveEvents_events s evs hlen

/-- C5 counterexample: saving `ev1` then `ev2` and reading the log back
yields `[ev2, ev1]` — newest first — and NOT the insertion order
`[ev1, ev2]` the claim states. -/
theorem getGameEvents_not_insertion_order :
    getGameEvents (saveEvents emptyStore [ev1, ev2]) = [ev2, ev1] ∧
      getGameEvents (saveEvents emptyStore [ev1, ev2]) ≠ [ev1, ev2] := by
  constructor
  · rfl
  · decide

/-- C10. For every coordinate with no stored hex, `setHexUpgrade` leaves
the store completely unchanged (it writes nothing, so an upgrade can only
be attached to an existing hex); when the hex exists, only its `upgrade`
and `upgradeTime` fields change, other hexes and the rest of the store
keep their values. -/
theorem setHexUpgrade_spec (s : GameStore) (c : Coord) (u : String)
    (now : Nat) :
    (getHex s c = none → setHexUpgrade s c u now = s) ∧
    (∀ h, getHex s c = some h →
      getHex (setHexUpgrade s c u now) c =
          some { h with upgrade := u, upgradeTime := some now } ∧
        (∀ c2, c2 ≠ c → getHex (setHexUpgrade s c u now) c2 = getHex s c2) ∧
        (setHexUpgrade s c u now).points = s.points ∧
        (setHexUpgrade s c u now).events = s.events) := by
  constructor
  · intro hnone
    unfold setHexUpgrade
    rw [hnone]
  · intro h hsome
    unfold setHexUpgrade
    rw [hsome]
    refine ⟨?_, ?_, rfl, rfl⟩
    · unfold getHex
      exact alGet_alSet_self ..
    · intro c2 hne
      unfold getHex
      exact alGet_alSet_other _ _ _ _ hne

/-- Witness for C10 at concrete inputs: upgrading a missing hex `(5, 5)`
writes nothing, and upgrading the existing hex `(0, 0)` changes exactly
the upgrade fields. -/
theorem setHexUpgrade_spec_witness :
    setHexUpgrade oneHexStore (5, 5) "fort" 9 = oneHexStore ∧
      getHex (setHexUpgrade oneHexStore (0, 0) "fort" 9) (0, 0) =
        some { owner := some "A", color := "#e74c3c", upgrade := "fort",
               terrain := "", captureTime := 5, upgradeTime := some 9,
               isStart := true } := by
  constructor
  · exact (setHexUpgrade_spec oneHexStore (5, 5) "fort" 9).1 (by decide)
  · exact ((setHexUpgrade_spec oneHexStore (0, 0) "fort" 9).2
      { owner := some "A", color := "#e74c3c", upgrade := "",
        terrain := "", captureTime := 5, upgradeTime := none,
        isStart := true } (by decide)).1

/-! ## Start pick (C6) -/

theorem setHex_points (s : GameStore) (c : Coord) (pid : Option String)
    (color : String) (up ter : Option String) (isStart : Bool) (now : Nat) :
    (setHex s c pid color up ter isStart now).points = s.points := rfl

theorem setHex_events (s : GameStore) (c : Coord) (pid : Option String)
    (color : String) (up ter : Option String) (isStart : Bool) (now : Nat) :
    (setHex s c pid color up ter isStart now).events = s.events := rfl

theorem saveGameEvent_hexes (s : GameStore) (pid color : String) (q r : Int)
    (et : String) (now : Nat) :
    (saveGameEvent s pid color q r et now).hexes = s.hexes := rfl

theorem saveGameEvent_points (s : GameStore) (pid color : String) (q r : Int)
    (et : String) (now : Nat) :
    (saveGameEvent s pid color q r et now).points = s.points := rfl

theorem setPlayerPoints_hexes (s : GameStore) (pid : String)
    (pts maxPts : Nat) (sq sr : Option Int) (now : Nat) :
    (setPlayerPoints s pid pts maxPts sq sr now).hexes = s.hexes := rfl

theorem setPlayerPoints_events (s : GameStore) (pid : String)
    (pts maxPts : Nat) (sq sr : Option Int) (now : Nat) :
    (setPlayerPoints s pid pts maxPts sq sr now).events = s.events := rfl

/-- C6. A `chooseStart (q, r)` received at time `now` is accepted exactly
when the player has not already started, `now` is at most
`lobbyStartTime + startDelay` (equality accepted, one more ms rejected),
the hex is passable and the hex is unoccupied; on success the hex is
stored with `isStart = true` for the player, the player's
`startQ`/`startR` are recorded in their points row, `fillResult {ok:true}`
is sent and the `update` broadcast carries `crown = true` (the `true`
payload of `accepted`). -/
theorem chooseStart_spec (s : GameStore) (p : PlayerCtx)
    (lobbyStartTime : Nat) (c : Coord) (now : Nat) :
    ((handleChooseStart s p lobbyStartTime c now).2 = .accepted true ↔
      (p.started = false ∧ now ≤ lobbyStartTime + startDelay ∧
        isHexPassable s c = true ∧
        (∀ hx, getHex s c = some hx → hx.owner = none))) ∧
    ((handleChooseStart s p lobbyStartTime c now).2 = .accepted true →
      (getHex (handleChooseStart s p lobbyStartTime c now).1 c =
          some { owner := some p.id, color := p.color, upgrade := "",
                 terrain := "", captureTime := now, upgradeTime := none,
                 isStart := true } ∧
        ∃ row, alGet (handleChooseStart s p lobbyStartTime c now).1.points
            p.id = some row ∧
          row.startQ = some c.1 ∧ row.startR = some c.2)) := by
  by_cases hstart : p.started
  · constructor
    · simp [handleChooseStart, hstart]
    · intro hacc
      simp [handleChooseStart, hstart] at hacc
  · by_cases htime : lobbyStartTime + startDelay < now
    · constructor
      · constructor
        · intro hacc
          simp [handleChooseStart, hstart, htime] at hacc
        · intro ⟨_, h2, _, _⟩
          omega
      · intro hacc
        simp [handleChooseStart, hstart, htime] at hacc
    · by_cases hocc : ((getHexOwner s c).map
          (fun h => h.owner.isSome)).getD false = true
      · constructor
        · constructor
          · intro hacc
            simp [handleChooseStart, hstart, htime, hocc] at hacc
          · intro ⟨_, _, _, h4⟩
            exfalso
            unfold getHexOwner at hocc
            cases hhx : getHex s c with
            | none =>
              rw [hhx] at hocc
              simp at hocc
            | some hx =>
              rw [hhx] at hocc
              simp only [Option.map_some', Option.getD_some] at hocc
              rw [h4 hx hhx] at hocc
              simp at hocc
        · intro hacc
          simp [handleChooseStart, hstart, htime, hocc] at hacc
      · by_cases hpass : isHexPassable s c = true
        · have heval : handleChooseStart s p lobbyStartTime c now =
              (setPlayerPoints
                (getPlayerPoints (saveGameEvent
                  (setHex s c (some p.id) p.color none none true now)
                  p.id p.color c.1 c.2 "start" now) p.id now).1
                p.id
                (getPlayerPoints (saveGameEvent
                  (setHex s c (some p.id) p.color none none true now)
                  p.id p.color c.1 c.2 "start" now) p.id now).2.points
                (getPlayerPoints (saveGameEvent
                  (setHex s c (some p.id) p.color none none true now)
                  p.id p.color c.1 c.2 "start" now) p.id now).2.maxPoints
                (some c.1) (some c.2) now, .accepted true) := by
            unfold handleChooseStart
            rw [if_neg hstart, if_neg htime, if_neg (by
              rw [Bool.not_eq_true] at hocc ⊢
              exact hocc), if_neg (by simp [hpass])]
          constructor
          · rw [heval]
            simp only [true_iff]
            refine ⟨by simpa using hstart, by omega, hpass, ?_⟩
            intro hx hhx
            unfold getHexOwner at hocc
            rw [hhx] at hocc
            simp at hocc
            exact Option.isNone_iff_eq_none.mp (by simpa using hocc)
          · intro _
            rw [heval]
            constructor
            · show getHex _ c = _
              unfold getHex
              rw [setPlayerPoints_hexes, getPlayerPoints_hexes,
                saveGameEvent_hexes]
              exact alGet_alSet_self ..
            · exact ⟨_, by unfold setPlayerPoints; exact alGet_alSet_self ..,
                rfl, rfl⟩
        · constructor
          · constructor
            · intro hacc
              simp [handleChooseStart, hstart, htime, hocc, hpass] at hacc
            · intro ⟨_, _, h3, _⟩
              exact absurd h3 hpass
          · intro hacc
            simp [handleChooseStart, hstart, htime, hocc, hpass] at hacc

/-- Witness for C6 at the exact deadline `now = lobbyStartTime +
startDelay`: the pick on an empty store is accepted, the crown hex is
stored and `startQ`/`startR` are recorded. -/
theorem chooseStart_spec_witness :
    (handleChooseStart emptyStore
        { id := "A", color := "#e74c3c", started := false } 100 (2, 3)
        (100 + startDelay)).2 = .accepted true ∧
      getHex (handleChooseStart emptyStore
          { id := "A", color := "#e74c3c", started := false } 100 (2, 3)
          (100 + startDelay)).1 (2, 3) =
        some { owner := some "A", color := "#e74c3c", upgrade := "",
               terrain := "", captureTime := 100 + startDelay,
               upgradeTime := none, isStart := true } := by
  have hspec := chooseStart_spec emptyStore
    { id := "A", color := "#e74c3c", started := false } 100 (2, 3)
    (100 + startDelay)
  have hacc := hspec.1.mpr (by
    refine ⟨rfl, le_refl _, rfl, ?_⟩
    intro hx hhx
    simp [getHex, emptyStore, alGet] at hhx)
  exact ⟨hacc, (hspec.2 hacc).1⟩

theorem computeCost_fst_hexes (s : GameStore) (aid : String) (c : Coord)
    (now : Nat) : (computeCost s aid c now).1.hexes = s.hexes := by
  simp only [computeCost]
  split
  · rfl
  · split
    · split
      · split
        · rfl
        · exact getPlayerPoints_hexes ..
      · rfl
    · rfl

theorem computeCost_fst_events (s : GameStore) (aid : String) (c : Coord)
    (now : Nat) : (computeCost s aid c now).1.events = s.events := by
  simp only [computeCost]
  split
  · rfl
  · split
    · split
      · split
        · rfl
        · exact getPlayerPoints_events ..
      · rfl
    · rfl

theorem computeCost_fst_points_attacker (s : GameStore) (aid : String)
    (c : Coord) (now : Nat) :
    alGet (computeCost s aid c now).1.points aid = alGet s.points aid := by
  simp only [computeCost]
  split
  · rfl
  · split
    · split
      · split
        · rfl
        · rename_i hne
          exact getPlayerPoints_other s _ now aid (Ne.symm hne)
      · rfl
    · rfl

theorem calculateMaxPoints_congr (s1 s2 : GameStore) (pid : String)
    (h : s1.hexes = s2.hexes) :
    calculateMaxPoints s1 pid = calculateMaxPoints s2 pid := by
  unfold calculateMaxPoints playerHexes
  rw [h]

theorem isAdjacentToRiver_congr (s1 s2 : GameStore) (c : Coord)
    (h : s1.hexes = s2.hexes) :
    isAdjacentToRiver s1 c = isAdjacentToRiver s2 c := by
  unfold isAdjacentToRiver getHex
  rw [h]

theorem playerHasRiverAccess_congr (s1 s2 : GameStore) (pid : String)
    (h : s1.hexes = s2.hexes) :
    playerHasRiverAccess s1 pid = playerHasRiverAccess s2 pid := by
  unfold playerHasRiverAccess playerHexes isAdjacentToRiver getHex
  rw [h]

theorem handleFillHex_none (s : GameStore) (p : PlayerCtx) (c : Coord)
    (now : Nat) (row : PointsRow)
    (hstart : p.started = true) (hpass : isHexPassable s c = true)
    (hnotown : ownedBy (getHexOwner s c) p.id = false)
    (hrow : alGet s.points p.id = some row)
    (hc : (computeCost s p.id c now).2 = none) :
    handleFillHex s p c now =
      ((computeCost s p.id c now).1, .rejected "insufficient") := by
  have hgp := getPlayerPoints_of_mem s p.id now row hrow
  have h1 : (getPlayerPoints s p.id now).1 = s := by rw [hgp]
  have h2 : (getPlayerPoints s p.id now).2.points = row.points := by rw [hgp]
  simp only [handleFillHex]
  rw [if_neg (by simp [hstart]), if_neg (by simp [hpass]),
    if_neg (by simp [hnotown]), h1, h2]
  simp only [hc]

theorem handleFillHex_lt (s : GameStore) (p : PlayerCtx) (c : Coord)
    (now : Nat) (row : PointsRow) (k : Nat)
    (hstart : p.started = true) (hpass : isHexPassable s c = true)
    (hnotown : ownedBy (getHexOwner s c) p.id = false)
    (hrow : alGet s.points p.id = some row)
    (hc : (computeCost s p.id c now).2 = some k)
    (hlt : row.points < k) :
    handleFillHex s p c now =
      ((computeCost s p.id c now).1, .rejected "insufficient") := by
  have hgp := getPlayerPoints_of_mem s p.id now row hrow
  have h1 : (getPlayerPoints s p.id now).1 = s := by rw [hgp]
  have h2 : (getPlayerPoints s p.id now).2.points = row.points := by rw [hgp]
  simp only [handleFillHex]
  rw [if_neg (by simp [hstart]), if_neg (by simp [hpass]),
    if_neg (by simp [hnotown]), h1, h2]
  simp only [hc]
  rw [if_pos hlt]

theorem handleFillHex_success (s : GameStore) (p : PlayerCtx) (c : Coord)
    (now : Nat) (row : PointsRow) (k : Nat)
    (hstart : p.started = true) (hpass : isHexPassable s c = true)
    (hnotown : ownedBy (getHexOwner s c) p.id = false)
    (hrow : alGet s.points p.id = some row)
    (hc : (computeCost s p.id c now).2 = some k)
    (hge : ¬row.points < k) :
    handleFillHex s p c now =
      (captureApply s p c now row.points k, .captured k) := by
  have hgp := getPlayerPoints_of_mem s p.id now row hrow
  have h1 : (getPlayerPoints s p.id now).1 = s := by rw [hgp]
  have h2 : (getPlayerPoints s p.id now).2.points = row.points := by rw [hgp]
  simp only [handleFillHex]
  rw [if_neg (by simp [hstart]), if_neg (by simp [hpass]),
    if_neg (by simp [hnotown]), h1, h2]
  simp only [hc]
  rw [if_neg hge]
  rfl

theorem handleClickHex_none (s : GameStore) (p : PlayerCtx) (c : Coord)
    (now : Nat) (row : PointsRow)
    (hstart : p.started = true) (hpass : isHexPassable s c = true)
    (hnotown : ownedBy (getHexOwner s c) p.id = false)
    (hrow : alGet s.points p.id = some row)
    (hc : (computeCost s p.id c now).2 = none) :
    handleClickHex s p c now =
      ((computeCost s p.id c now).1, .rejected "insufficient") := by
  have hgp := getPlayerPoints_of_mem s p.id now row hrow
  have h1 : (getPlayerPoints s p.id now).1 = s := by rw [hgp]
  have h2 : (getPlayerPoints s p.id now).2.points = row.points := by rw [hgp]
  simp only [handleClickHex]
  rw [if_neg (by simp [hstart]), if_neg (by simp [hpass]),
    if_neg (by simp [hnotown]), h1, h2]
  simp only [hc]

theorem handleClickHex_lt (s : GameStore) (p : PlayerCtx) (c : Coord)
    (now : Nat) (row : PointsRow) (k : Nat)
    (hstart : p.started = true) (hpass : isHexPassable s c = true)
    (hnotown : ownedBy (getHexOwner s c) p.id = false)
    (hrow : alGet s.points p.id = some row)
    (hc : (computeCost s p.id c now).2 = some k)
    (hlt : row.points < k) :
    handleClickHex s p c now =
      ((computeCost s p.id c now).1, .rejected "insufficient") := by
  have hgp := getPlayerPoints_of_mem s p.id now row hrow
  have h1 : (getPlayerPoints s p.id now).1 = s := by rw [hgp]
  have h2 : (getPlayerPoints s p.id now).2.points = row.points := by rw [hgp]
  simp only [handleClickHex]
  rw [if_neg (by simp [hstart]), if_neg (by simp [hpass]),
    if_neg (by simp [hnotown]), h1, h2]
  simp only [hc]
  rw [if_pos hlt]

theorem handleClickHex_notadj (s : GameStore) (p : PlayerCtx) (c : Coord)
    (now : Nat) (row : PointsRow) (k : Nat)
    (hstart : p.started = true) (hpass : isHexPassable s c = true)
    (hnotown : ownedBy (getHexOwner s c) p.id = false)
    (hrow : alGet s.points p.id = some row)
    (hc : (computeCost s p.id c now).2 = some k)
    (hge : ¬row.points < k)
    (hempty : (playerHexes s p.id).isEmpty = false)
    (hnadj : (playerHexes s p.id).any (fun e =>
      (getNeighborCoords e.1).any (fun n => decide (n = c))) = false)
    (hnriv : (isAdjacentToRiver s c && playerHasRiverAccess s p.id) = false) :
    handleClickHex s p c now =
      ((computeCost s p.id c now).1, .rejected "not_adjacent") := by
  have hgp := getPlayerPoints_of_mem s p.id now row hrow
  have h1 : (getPlayerPoints s p.id now).1 = s := by rw [hgp]
  have h2 : (getPlayerPoints s p.id now).2.points = row.points := by rw [hgp]
  have hhx := computeCost_fst_hexes s p.id c now
  have hfilter : (getAllHexes (computeCost s p.id c now).1).filter
      (fun e => decide (e.2.owner = some p.id)) = playerHexes s p.id := by
    unfold getAllHexes playerHexes
    rw [hhx]
  simp only [handleClickHex]
  rw [if_neg (by simp [hstart]), if_neg (by simp [hpass]),
    if_neg (by simp [hnotown]), h1, h2]
  simp only [hc]
  rw [if_neg hge, hfilter, isAdjacentToRiver_congr _ s c hhx,
    playerHasRiverAccess_congr _ s p.id hhx]
  rw [if_pos (by rw [hempty, hnadj, hnriv]; rfl)]

theorem handleClickHex_success (s : GameStore) (p : PlayerCtx) (c : Coord)
    (now : Nat) (row : PointsRow) (k : Nat)
    (hstart : p.started = true) (hpass : isHexPassable s c = true)
    (hnotown : ownedBy (getHexOwner s c) p.id = false)
    (hrow : alGet s.points p.id = some row)
    (hc : (computeCost s p.id c now).2 = some k)
    (hge : ¬row.points < k)
    (hadj : ((playerHexes s p.id).isEmpty ||
        (playerHexes s p.id).any (fun e =>
          (getNeighborCoords e.1).any (fun n => decide (n = c)))) = true ∨
      (isAdjacentToRiver s c && playerHasRiverAccess s p.id) = true) :
    handleClickHex s p c now =
      (captureApply s p c now row.points k, .captured k) := by
  have hgp := getPlayerPoints_of_mem s p.id now row hrow
  have h1 : (getPlayerPoints s p.id now).1 = s := by rw [hgp]
  have h2 : (getPlayerPoints s p.id now).2.points = row.points := by rw [hgp]
  have hhx := computeCost_fst_hexes s p.id c now
  have hfilter : (getAllHexes (computeCost s p.id c now).1).filter
      (fun e => decide (e.2.owner = some p.id)) = playerHexes s p.id := by
    unfold getAllHexes playerHexes
    rw [hhx]
  simp only [handleClickHex]
  rw [if_neg (by simp [hstart]), if_neg (by simp [hpass]),
    if_neg (by simp [hnotown]), h1, h2]
  simp only [hc]
  rw [if_neg hge, hfilter, isAdjacentToRiver_congr _ s c hhx,
    playerHasRiverAccess_congr _ s p.id hhx]
  rw [if_neg (by
    rcases hadj with hA | hA
    · rw [hA]
      simp
    · rw [hA]
      simp)]
  rfl

/-- When the target's owner (if any) has a points row, `computeCost`
writes nothing at all. -/
theorem computeCost_fst_id (s : GameStore) (aid : String) (c : Coord)
    (now : Nat)
    (hdef : ∀ hx d, getHex s c = some hx → hx.owner = some d →
      (alGet s.points d).isSome) :
    (computeCost s aid c now).1 = s := by
  simp only [computeCost]
  split
  · rfl
  · split
    · rename_i oh hoh
      split
      · rename_i d hd
        split
        · rfl
        · show (getPlayerPoints s d now).1 = s
          have hsome := hdef oh d hoh hd
          obtain ⟨drow, hdrow⟩ := Option.isSome_iff_exists.mp hsome
          rw [getPlayerPoints_of_mem s d now drow hdrow]
      · rfl
    · rfl

/-- The stored hex written by a capture: fresh record with empty upgrade
and empty terrain. -/
theorem captureApply_getHex (s : GameStore) (p : PlayerCtx) (c : Coord)
    (now : Nat) (pts k : Nat) :
    getHex (captureApply s p c now pts k) c =
      some { owner := some p.id, color := p.color, upgrade := "",
             terrain := "", captureTime := now, upgradeTime := none,
             isStart := false } := by
  unfold captureApply getHex
  rw [saveGameEvent_hexes]
  exact alGet_alSet_self ..

/-- The event list after a capture: the `capture` event is prepended and
the list trimmed to 10,000. -/
theorem captureApply_events (s : GameStore) (p : PlayerCtx) (c : Coord)
    (now : Nat) (pts k : Nat) :
    (captureApply s p c now pts k).events =
      (({ playerId := p.id, color := p.color, q := c.1, r := c.2,
          eventType := "capture", timestamp := now } : Event)
        :: s.events).take 10000 := by
  unfold captureApply saveGameEvent
  rw [setHex_events, updatePlayerPoints_events, computeCost_fst_events]

/-- The attacker's stored points after a capture debit: exactly the old
points minus the cost, provided the points invariant `points ≤ cap`
holds. -/
theorem captureApply_points (s : GameStore) (p : PlayerCtx) (c : Coord)
    (now : Nat) (row : PointsRow) (k : Nat)
    (hrow : alGet s.points p.id = some row)
    (hk : k ≤ row.points)
    (hmax : row.points ≤ calculateMaxPoints s p.id) :
    storedPoints (captureApply s p c now row.points k) p.id =
      some (row.points - k) := by
  have hrowc : alGet (computeCost s p.id c now).1.points p.id = some row := by
    rw [computeCost_fst_points_attacker]
    exact hrow
  have hupd := updatePlayerPoints_row (computeCost s p.id c now).1 p.id
    ((row.points : Int) - (k : Int)) now row hrowc
  have hmaxEq : calculateMaxPoints (computeCost s p.id c now).1 p.id =
      calculateMaxPoints s p.id :=
    calculateMaxPoints_congr _ _ _ (computeCost_fst_hexes ..)
  rw [hmaxEq] at hupd
  have hval : (max 0 (min ((row.points : Int) - (k : Int))
      ((calculateMaxPoints s p.id : Nat) : Int))).toNat = row.points - k := by
    omega
  unfold captureApply storedPoints
  have hpts : (saveGameEvent
      (setHex
        (updatePlayerPoints (computeCost s p.id c now).1 p.id
          ((row.points : Int) - (k : Int)) now)
        c (some p.id) p.color none none false now)
      p.id p.color c.1 c.2 "capture" now).points =
      (updatePlayerPoints (computeCost s p.id c now).1 p.id
        ((row.points : Int) - (k : Int)) now).points := by
    rw [saveGameEvent_points, setHex_points]
  rw [hpts, hupd]
  simp only [Option.map_some']
  rw [hval]

/-- C3 counterexample: on `c4store` the target `(5, 5)` is passable,
unowned, costs 17 while `A` holds 200 points — yet `clickHex` does NOT
capture; it rejects with `not_adjacent` and changes no points. This
refutes the claim that points ≥ cost alone makes the capture succeed. -/
theorem clickHex_rejects_despite_points_cex :
    (computeCost c4store "A" (5, 5) 999).2 = some 17 ∧
      storedPoints c4store "A" = some 200 ∧
      (handleClickHex c4store pA (5, 5) 999).2 = .rejected "not_adjacent" ∧
      (handleClickHex c4store pA (5, 5) 999).2 ≠ .captured 17 ∧
      storedPoints (handleClickHex c4store pA (5, 5) 999).1 "A" =
        some 200 := by
  refine ⟨by decide, by decide, by decide, by decide, by decide⟩

/-- C3 (amended). For every capture attempt via `clickHex` or `fillHex`
by a started player on a passable target hex not owned by them (with an
existing points row): if `computeCost` returns `null` or the points are
strictly below the cost, both handlers send
`fillResult {ok:false, reason:"insufficient"}` and neither the hex hash
nor the player's points row changes; if the points reach the cost (also
exactly), `fillHex` captures and stores points minus cost (so equality
leaves exactly 0), and `clickHex` does the same PROVIDED its adjacency
rule (adjacent-to-owned, no-hexes exemption, or river exception)
passes. -/
theorem capture_points_protocol (s : GameStore) (p : PlayerCtx) (c : Coord)
    (now : Nat) (row : PointsRow)
    (hstart : p.started = true)
    (hpass : isHexPassable s c = true)
    (hnotown : ownedBy (getHexOwner s c) p.id = false)
    (hrow : alGet s.points p.id = some row) :
    (((computeCost s p.id c now).2 = none ∨
        (∃ k, (computeCost s p.id c now).2 = some k ∧ row.points < k)) →
      ((handleFillHex s p c now).2 = .rejected "insufficient" ∧
        (handleFillHex s p c now).1.hexes = s.hexes ∧
        alGet (handleFillHex s p c now).1.points p.id = some row ∧
        (handleClickHex s p c now).2 = .rejected "insufficient" ∧
        (handleClickHex s p c now).1.hexes = s.hexes ∧
        alGet (handleClickHex s p c now).1.points p.id = some row)) ∧
    (∀ k, (computeCost s p.id c now).2 = some k → k ≤ row.points →
      row.points ≤ calculateMaxPoints s p.id →
      ((handleFillHex s p c now).2 = .captured k ∧
        storedPoints (handleFillHex s p c now).1 p.id =
          some (row.points - k)) ∧
      ((((playerHexes s p.id).isEmpty ||
          (playerHexes s p.id).any (fun e =>
            (getNeighborCoords e.1).any (fun n => decide (n = c)))) = true ∨
         (isAdjacentToRiver s c && playerHasRiverAccess s p.id) = true) →
        ((handleClickHex s p c now).2 = .captured k ∧
          storedPoints (handleClickHex s p c now).1 p.id =
            some (row.points - k)))) := by
  constructor
  · intro hins
    have hgoal : ∀ st : GameStore × FillOutcome,
        st = ((computeCost s p.id c now).1, .rejected "insufficient") →
        st.2 = FillOutcome.rejected "insufficient" ∧
          st.1.hexes = s.hexes ∧
          alGet st.1.points p.id = some row := by
      intro st hst
      rw [hst]
      refine ⟨rfl, computeCost_fst_hexes .., ?_⟩
      rw [computeCost_fst_points_attacker]
      exact hrow
    rcases hins with hnone | ⟨k, hk, hlt⟩
    · obtain ⟨a1, a2, a3⟩ := hgoal _
        (handleFillHex_none s p c now row hstart hpass hnotown hrow hnone)
      obtain ⟨b1, b2, b3⟩ := hgoal _
        (handleClickHex_none s p c now row hstart hpass hnotown hrow hnone)
      exact ⟨a1, a2, a3, b1, b2, b3⟩
    · obtain ⟨a1, a2, a3⟩ := hgoal _
        (handleFillHex_lt s p c now row k hstart hpass hnotown hrow hk hlt)
      obtain ⟨b1, b2, b3⟩ := hgoal _
        (handleClickHex_lt s p c now row k hstart hpass hnotown hrow hk hlt)
      exact ⟨a1, a2, a3, b1, b2, b3⟩
  · intro k hk hkle hmax
    have hge : ¬row.points < k := by omega
    constructor
    · rw [handleFillHex_success s p c now row k hstart hpass hnotown hrow
        hk hge]
      exact ⟨rfl, captureApply_points s p c now row k hrow hkle hmax⟩
    · intro hadj
      rw [handleClickHex_success s p c now row k hstart hpass hnotown hrow
        hk hge hadj]
      exact ⟨rfl, captureApply_points s p c now row k hrow hkle hmax⟩

/-- Witness for C3 at a boundary input: cost 17 with exactly 17 points —
both handlers capture and leave exactly 0 stored points. -/
theorem capture_points_protocol_witness :
    (handleFillHex c3wStore pA (1, 0) 50).2 = .captured 17 ∧
      storedPoints (handleFillHex c3wStore pA (1, 0) 50).1 "A" = some 0 ∧
      (handleClickHex c3wStore pA (1, 0) 50).2 = .captured 17 ∧
      storedPoints (handleClickHex c3wStore pA (1, 0) 50).1 "A" =
        some 0 := by
  have hmain := (capture_points_protocol c3wStore pA (1, 0) 50
    { points := 17, maxPoints := 205, startQ := some 0, startR := some 0,
      lastUpdate := 0 }
    (by decide) (by decide) (by decide) (by decide)).2 17
    (by decide) (by decide) (by decide)
  obtain ⟨⟨f1, f2⟩, hclick⟩ := hmain
  obtain ⟨c1, c2⟩ := hclick (Or.inl (by decide))
  exact ⟨f1, f2, c1, c2⟩

/-- C7. For a `clickHex` capture attempt that has passed the earlier
guards (started, passable, not own hex, affordable cost, rows present):
if the player owns at least one hex, and the target is neither a neighbor
of any owned hex nor covered by the river exception, the handler sends
`fillResult {ok:false, reason:"not_adjacent"}` and leaves the store
completely unchanged; a player owning no hexes is exempt and captures;
and any successful capture implies the exemption, adjacency, or the
river exception. -/
theorem clickHex_adjacency_rule (s : GameStore) (p : PlayerCtx) (c : Coord)
    (now : Nat) (row : PointsRow) (k : Nat)
    (hstart : p.started = true)
    (hpass : isHexPassable s c = true)
    (hnotown : ownedBy (getHexOwner s c) p.id = false)
    (hrow : alGet s.points p.id = some row)
    (hc : (computeCost s p.id c now).2 = some k)
    (hge : ¬row.points < k)
    (hdefrow : ∀ hx d, getHex s c = some hx → hx.owner = some d →
      (alGet s.points d).isSome) :
    ((playerHexes s p.id).isEmpty = false →
      (playerHexes s p.id).any (fun e =>
        (getNeighborCoords e.1).any (fun n => decide (n = c))) = false →
      (isAdjacentToRiver s c && playerHasRiverAccess s p.id) = false →
      ((handleClickHex s p c now).2 = .rejected "not_adjacent" ∧
        (handleClickHex s p c now).1 = s)) ∧
    ((playerHexes s p.id).isEmpty = true →
      (handleClickHex s p c now).2 = .captured k) ∧
    (∀ k2, (handleClickHex s p c now).2 = .captured k2 →
      ((playerHexes s p.id).isEmpty = true ∨
        (playerHexes s p.id).any (fun e =>
          (getNeighborCoords e.1).any (fun n => decide (n = c))) = true ∨
        (isAdjacentToRiver s c && playerHasRiverAccess s p.id) = true)) := by
  refine ⟨?_, ?_, ?_⟩
  · intro hempty hnadj hnriv
    rw [handleClickHex_notadj s p c now row k hstart hpass hnotown hrow hc
      hge hempty hnadj hnriv]
    exact ⟨rfl, computeCost_fst_id s p.id c now hdefrow⟩
  · intro hempty
    rw [handleClickHex_success s p c now row k hstart hpass hnotown hrow hc
      hge (Or.inl (by rw [hempty]; rfl))]
  · intro k2 hcap
    by_cases hE : (playerHexes s p.id).isEmpty = true
    · exact Or.inl hE
    · by_cases hA : (playerHexes s p.id).any (fun e =>
          (getNeighborCoords e.1).any (fun n => decide (n = c))) = true
      · exact Or.inr (Or.inl hA)
      · by_cases hR : (isAdjacentToRiver s c &&
            playerHasRiverAccess s p.id) = true
        · exact Or.inr (Or.inr hR)
        · exfalso
          rw [handleClickHex_notadj s p c now row k hstart hpass hnotown
            hrow hc hge (by simpa using hE) (by simpa using hA)
            (by simpa using hR)] at hcap
          simp at hcap

/-- Witness for C7: on `c4store`, the far-away `(5, 5)` is rejected with
`not_adjacent` and the store is exactly unchanged. -/
theorem clickHex_adjacency_rule_witness :
    (handleClickHex c4store pA (5, 5) 999).2 = .rejected "not_adjacent" ∧
      (handleClickHex c4store pA (5, 5) 999).1 = c4store := by
  have hmain := (clickHex_adjacency_rule c4store pA (5, 5) 999 rowA 17
    (by decide) (by decide) (by decide) (by decide) (by decide) (by decide)
    (by
      intro hx d hhx hxo
      rw [show getHex c4store (5, 5) = none by decide] at hhx
      exact Option.noConfusion hhx)).1
    (by decide) (by decide) (by decide)
  exact hmain

/-- C4 counterexample: capturing the river hex `(1, 0)` on `c4store`
succeeds, but the STORED hex afterwards has terrain `""` where it was
`"river"` before — the ownership write does not preserve terrain, so the
claim "the stored hex after the transfer has the same terrain value as
before" is false. -/
theorem capture_terrain_not_preserved_cex :
    ((getHex c4store (1, 0)).map (fun h => h.terrain)) = some "river" ∧
      (handleClickHex c4store pA (1, 0) 999).2 = .captured 17 ∧
      ((getHex (handleClickHex c4store pA (1, 0) 999).1 (1, 0)).map
        (fun h => h.terrain)) = some "" ∧
      ((getHex (handleClickHex c4store pA (1, 0) 999).1 (1, 0)).map
          (fun h => h.terrain)) ≠
        ((getHex c4store (1, 0)).map (fun h => h.terrain)) := by
  refine ⟨by decide, by decide, by decide, by decide⟩

/-- C4 (amended). Every successful single-hex capture (`clickHex` under
its adjacency rule, or `fillHex`) of a pre-existing hex overwrites the
stored hex with a fresh record whose terrain (and upgrade) is the EMPTY
string — the previous terrain is NOT preserved in the store (only the
in-memory broadcast copy keeps it) — and appends a `capture` event at the
head of the event list (trimmed to 10,000). -/
theorem capture_overwrites_stored_hex (s : GameStore) (p : PlayerCtx)
    (c : Coord) (now : Nat) (row : PointsRow) (k : Nat) (hx0 : Hex)
    (hstart : p.started = true)
    (hpass : isHexPassable s c = true)
    (hnotown : ownedBy (getHexOwner s c) p.id = false)
    (hrow : alGet s.points p.id = some row)
    (hc : (computeCost s p.id c now).2 = some k)
    (hge : ¬row.points < k)
    (_hex0 : getHex s c = some hx0) :
    (getHex (handleFillHex s p c now).1 c =
        some { owner := some p.id, color := p.color, upgrade := "",
               terrain := "", captureTime := now, upgradeTime := none,
               isStart := false } ∧
      (handleFillHex s p c now).1.events =
        (({ playerId := p.id, color := p.color, q := c.1, r := c.2,
            eventType := "capture", timestamp := now } : Event)
          :: s.events).take 10000) ∧
    ((((playerHexes s p.id).isEmpty ||
        (playerHexes s p.id).any (fun e =>
          (getNeighborCoords e.1).any (fun n => decide (n = c)))) = true ∨
       (isAdjacentToRiver s c && playerHasRiverAccess s p.id) = true) →
      (getHex (handleClickHex s p c now).1 c =
          some { owner := some p.id, color := p.color, upgrade := "",
                 terrain := "", captureTime := now, upgradeTime := none,
                 isStart := false } ∧
        (handleClickHex s p c now).1.events =
          (({ playerId := p.id, color := p.color, q := c.1, r := c.2,
              eventType := "capture", timestamp := now } : Event)
            :: s.events).take 10000)) := by
  constructor
  · rw [handleFillHex_success s p c now row k hstart hpass hnotown hrow
      hc hge]
    exact ⟨captureApply_getHex .., captureApply_events ..⟩
  · intro hadj
    rw [handleClickHex_success s p c now row k hstart hpass hnotown hrow
      hc hge hadj]
    exact ⟨captureApply_getHex .., captureApply_events ..⟩

/-- Witness for the amended C4 on `c4store`: both handlers store the
captured river hex with empty terrain and log the capture event. -/
theorem capture_overwrites_stored_hex_witness :
    getHex (handleFillHex c4store pA (1, 0) 999).1 (1, 0) =
        some { owner := some "A", color := "#e74c3c", upgrade := "",
               terrain := "", captureTime := 999, upgradeTime := none,
               isStart := false } ∧
      (handleFillHex c4store pA (1, 0) 999).1.events =
        [{ playerId := "A", color := "#e74c3c", q := 1, r := 0,
           eventType := "capture", timestamp := 999 }] := by
  have hmain := (capture_overwrites_stored_hex c4store pA (1, 0) 999 rowA
    17 riverHex (by decide) (by decide) (by decide) (by decide) (by decide)
    (by decide) (by decide)).1
  exact ⟨hmain.1, by rw [hmain.2]; decide⟩

/-- Witness for C2: on `c2store` the scan captures `(0, 0)` for `A`, and
the claimed majority conditions hold there concretely. -/
theorem autoExpand_capture_invariants_witness :
    autoExpandDecision c2store (0, 0) = some "A" ∧
      autoCaptureThreshold ≤ neighborOwnedCount c2store (0, 0) "A" ∧
      neighborOwnedCount c2store (0, 0) "B" <
        neighborOwnedCount c2store (0, 0) "A" := by
  have h : autoExpandDecision c2store (0, 0) = some "A" := by decide
  have hmain := autoExpand_capture_invariants c2store (0, 0) "A" h
  exact ⟨h, hmain.1.1, hmain.1.2 "B" (by decide)⟩

theorem tickStep_hexes (now : Nat) (st : GameStore) (pl : TickPlayer) :
    (tickStep now st pl).hexes = st.hexes := by
  unfold tickStep
  split
  · rfl
  · rw [updatePlayerPoints_hexes, getPlayerPoints_hexes]

theorem tickStep_other (now : Nat) (st : GameStore) (pl : TickPlayer)
    (pid : String) (h : pid ≠ pl.id) :
    alGet (tickStep now st pl).points pid = alGet st.points pid := by
  unfold tickStep
  split
  · rfl
  · rw [updatePlayerPoints_other _ _ _ _ _ h, getPlayerPoints_other _ _ _ _ h]

theorem tickStep_own (now : Nat) (st : GameStore) (pl : TickPlayer)
    (row : PointsRow) (hconn : pl.disconnected = false)
    (hrow : alGet st.points pl.id = some row) :
    alGet (tickStep now st pl).points pl.id =
      some { points := min (row.points + baseIncome)
               (calculateMaxPoints st pl.id),
             maxPoints := calculateMaxPoints st pl.id,
             startQ := row.startQ, startR := row.startR,
             lastUpdate := now } := by
  unfold tickStep
  rw [if_neg (by simp [hconn])]
  have hgp := getPlayerPoints_of_mem st pl.id now row hrow
  have h1 : (getPlayerPoints st pl.id now).1 = st := by rw [hgp]
  have h2 : (getPlayerPoints st pl.id now).2.points = row.points := by
    rw [hgp]
  rw [h1, h2, updatePlayerPoints_row st pl.id _ now row hrow]
  have hb : baseIncome = 2 := rfl
  have hval : (max 0 (min ((row.points : Int) + (baseIncome : Int))
      ((calculateMaxPoints st pl.id : Nat) : Int))).toNat =
      min (row.points + baseIncome) (calculateMaxPoints st pl.id) := by
    omega
  rw [hval]

theorem tickFold_hexes (now : Nat) (players : List TickPlayer)
    (s : GameStore) :
    (players.foldl (tickStep now) s).hexes = s.hexes := by
  induction players generalizing s with
  | nil => rfl
  | cons pl rest ih =>
    rw [List.foldl_cons, ih, tickStep_hexes]

theorem tickFold_other (now : Nat) (players : List TickPlayer)
    (s : GameStore) (pid : String)
    (h : pid ∉ players.map (fun pl => pl.id)) :
    alGet (players.foldl (tickStep now) s).points pid =
      alGet s.points pid := by
  induction players generalizing s with
  | nil => rfl
  | cons pl rest ih =>
    simp only [List.map_cons, List.mem_cons] at h
    push_neg at h
    rw [List.foldl_cons, ih _ h.2, tickStep_other _ _ _ _ h.1]

theorem tickFold_conn (now : Nat) (players : List TickPlayer) :
    ∀ s : GameStore, (players.map (fun q => q.id)).Nodup →
    ∀ pl ∈ players, pl.disconnected = false →
    ∀ row, alGet s.points pl.id = some row →
    alGet (players.foldl (tickStep now) s).points pl.id =
      some { points := min (row.points + baseIncome)
               (calculateMaxPoints s pl.id),
             maxPoints := calculateMaxPoints s pl.id,
             startQ := row.startQ, startR := row.startR,
             lastUpdate := now } := by
  induction players with
  | nil =>
    intro s _ pl hmem
    simp at hmem
  | cons x rest ih =>
    intro s hnodup pl hmem hconn row hrow
    simp only [List.map_cons, List.nodup_cons] at hnodup
    rcases List.mem_cons.mp hmem with hx | hx
    · subst hx
      rw [List.foldl_cons,
        tickFold_other now rest _ pl.id hnodup.1,
        tickStep_own now s pl row hconn hrow]
    · have hne : pl.id ≠ x.id := by
        intro he
        exact hnodup.1 (he ▸ List.mem_map_of_mem (fun q => q.id) hx)
      have hrow2 : alGet (tickStep now s x).points pl.id = some row := by
        rw [tickStep_other _ _ _ _ hne]
        exact hrow
      have hmax : calculateMaxPoints (tickStep now s x) pl.id =
          calculateMaxPoints s pl.id :=
        calculateMaxPoints_congr _ _ _ (tickStep_hexes ..)
      have hih := ih (tickStep now s x) hnodup.2 pl hx hconn row hrow2
      rw [hmax] at hih
      rw [List.foldl_cons]
      exact hih

theorem tickFold_disc (now : Nat) (players : List TickPlayer) :
    ∀ s : GameStore, (players.map (fun q => q.id)).Nodup →
    ∀ pl ∈ players, pl.disconnected = true →
    alGet (players.foldl (tickStep now) s).points pl.id =
      alGet s.points pl.id := by
  induction players with
  | nil =>
    intro s _ pl hmem
    simp at hmem
  | cons x rest ih =>
    intro s hnodup pl hmem hdis
    simp only [List.map_cons, List.nodup_cons] at hnodup
    rcases List.mem_cons.mp hmem with hx | hx
    · subst hx
      rw [List.foldl_cons,
        tickFold_other now rest _ pl.id hnodup.1]
      unfold tickStep
      rw [if_pos hdis]
    · have hne : pl.id ≠ x.id := by
        intro he
        exact hnodup.1 (he ▸ List.mem_map_of_mem (fun q => q.id) hx)
      rw [List.foldl_cons, ih (tickStep now s x) hnodup.2 pl hx hdis,
        tickStep_other _ _ _ _ hne]

/-- C8. In one economy-tick firing over the room's player list (distinct
player ids): every connected player's stored points become
`min(points + baseIncome, maxPoints)` with the cap freshly derived from
their hexes; disconnected players' rows are untouched; and the tick
broadcasts nothing. -/
theorem pointTick_spec (s : GameStore) (players : List TickPlayer)
    (now : Nat)
    (hnodup : (players.map (fun pl => pl.id)).Nodup) :
    (∀ pl ∈ players, pl.disconnected = false →
      ∀ row, alGet s.points pl.id = some row →
        storedPoints (pointTickOnce s players now).1 pl.id =
          some (min (row.points + baseIncome)
            (calculateMaxPoints s pl.id))) ∧
    (∀ pl ∈ players, pl.disconnected = true →
      alGet (pointTickOnce s players now).1.points pl.id =
        alGet s.points pl.id) ∧
    (pointTickOnce s players now).2 = [] := by
  refine ⟨?_, ?_, rfl⟩
  · intro pl hmem hconn row hrow
    unfold storedPoints pointTickOnce
    rw [tickFold_conn now players s hnodup pl hmem hconn row hrow]
    rfl
  · intro pl hmem hdis
    exact tickFold_disc now players s hnodup pl hmem hdis

/-- Witness for C8: after one tick, connected `A` holds
`min(200 + 2, 205) = 202` while disconnected `B` keeps 50; nothing is
broadcast. -/
theorem pointTick_spec_witness :
    storedPoints (pointTickOnce tickStore
        [{ id := "A", disconnected := false },
         { id := "B", disconnected := true }] 7).1 "A" = some 202 ∧
      storedPoints (pointTickOnce tickStore
        [{ id := "A", disconnected := false },
         { id := "B", disconnected := true }] 7).1 "B" = some 50 ∧
      (pointTickOnce tickStore
        [{ id := "A", disconnected := false },
         { id := "B", disconnected := true }] 7).2 = [] := by
  have hmain := pointTick_spec tickStore
    [{ id := "A", disconnected := false },
     { id := "B", disconnected := true }] 7 (by decide)
  refine ⟨?_, ?_, hmain.2.2⟩
  · have hA := hmain.1 { id := "A", disconnected := false } (by decide) rfl
      rowA (by decide)
    rw [hA]
    decide
  · have hB := hmain.2.1 { id := "B", disconnected := true } (by decide) rfl
    unfold storedPoints
    rw [hB]
    decide

/-- C9 counterexample: with `"Ab"` registered, registering `"ab"` — equal
under a case-insensitive comparison — does NOT return the existing
record; the endpoint creates a second player. The username comparison is
exact (`===`), not case-insensitive as claimed. -/
theorem register_not_case_insensitive_cex :
    (register regAB "ab" "player:2:b" ⟨0, by decide⟩ (fun s => s) 9).2 =
        .created "player:2:b" "player:2:b" "ab" "#e74c3c" ∧
      (register regAB "ab" "player:2:b" ⟨0, by decide⟩
          (fun s => s) 9).1.players.length = 2 := by
  refine ⟨by decide, by decide⟩

/-- C9 (amended). `register(username)`: a trimmed length below 2 is
rejected with `BadInput` and no player is created; otherwise, if a player
with EXACTLY the same (cleaned) username exists — the comparison is
case-sensitive — the endpoint returns that player's id, username and
color with a freshly computed token and creates nothing; otherwise it
creates one new player whose color is drawn from the fixed palette of 8
colors and returns its id, token, username and color. -/
theorem register_spec (st : Registry) (username : String) (newId : String)
    (colorIdx : Fin playerColors.length) (sign : String → String)
    (now : Nat) :
    ((jsTrim username).length < 2 →
      register st username newId colorIdx sign now = (st, .badInput)) ∧
    (2 ≤ (jsTrim username).length →
      ∀ pl, st.players.find?
          (fun q => decide (q.username = jsSlice (jsTrim username) 24)) =
            some pl →
        register st username newId colorIdx sign now =
          (st, .existing pl.id (sign pl.id) pl.username pl.color)) ∧
    (2 ≤ (jsTrim username).length →
      st.players.find?
          (fun q => decide (q.username = jsSlice (jsTrim username) 24)) =
            none →
      (register st username newId colorIdx sign now).2 =
          .created newId (sign newId) (jsSlice (jsTrim username) 24)
            (playerColors.get colorIdx) ∧
        (register st username newId colorIdx sign now).1.players.length =
          st.players.length + 1 ∧
        playerColors.get colorIdx ∈ playerColors ∧
        playerColors.length = 8) := by
  refine ⟨?_, ?_, ?_⟩
  · intro hshort
    unfold register
    rw [if_pos hshort]
  · intro hlen pl hfind
    unfold register
    rw [if_neg (by omega)]
    simp only [hfind]
  · intro hlen hfind
    unfold register
    rw [if_neg (by omega)]
    simp only [hfind]
    refine ⟨by trivial, ?_, List.get_mem .., by trivial⟩
    unfold createPlayer
    simp

/-- Witness for C9 at concrete inputs: a 1-letter name is rejected, the
exact name `"Ab"` returns the existing record with a fresh token, and a
new name is created with a palette color. -/
theorem register_spec_witness :
    register regAB " a " "player:2:b" ⟨0, by decide⟩ (fun s => s) 9 =
        (regAB, .badInput) ∧
      register regAB "Ab" "player:2:b" ⟨0, by decide⟩ (fun s => s) 9 =
        (regAB, .existing "player:1:a" "player:1:a" "Ab" "#3498db") ∧
      (register regAB "Cd" "player:2:b" ⟨2, by decide⟩
          (fun s => s) 9).2 =
        .created "player:2:b" "player:2:b" "Cd" "#2ecc71" := by
  have hspec1 := (register_spec regAB " a " "player:2:b" ⟨0, by decide⟩
    (fun s => s) 9).1 (by decide)
  have hspec2 := (register_spec regAB "Ab" "player:2:b" ⟨0, by decide⟩
    (fun s => s) 9).2.1 (by decide)
    recAb (by decide)
  have hspec3 := ((register_spec regAB "Cd" "player:2:b" ⟨2, by decide⟩
    (fun s => s) 9).2.2 (by decide) (by decide)).1
  exact ⟨hspec1, hspec2, hspec3.trans (by decide)⟩

/-- Witness for the amended C5 at concrete inputs: two saves read back
newest-first within the cap. -/
theorem getGameEvents_newest_first_witness :
    getGameEvents (saveEvents emptyStore [ev1, ev2]) =
        ([ev1, ev2].reverse ++ getGameEvents emptyStore).take 10000 ∧
      (getGameEvents (saveEvents emptyStore [ev1, ev2])).length ≤ 10000 :=
  getGameEvents_newest_first emptyStore [ev1, ev2] (by decide)

end HexGame
